import Mathlib

/-!
Shallow embedding of the arena-mcp API client core (src/arena/client.ts,
src/arena/normalize.ts, src/errors.ts, src/mcp/tools-read.ts) and proofs
about the frozen specification claims.

Modelling conventions:
* JSON values produced by `response.json()` are `JsValue`; an absent object
  field (JavaScript `undefined`) is modelled by field lookup returning
  `JsValue.null`, matching how every `asX` helper in normalize.ts treats
  `undefined` and `null` identically.
* JavaScript numbers are modelled as `Rat` (every value handled by the code
  is finite; floating-point rounding plays no role in the claims).
* Asynchronous effects (`fetch`, `sleepMs`, `Math.random`) are determinised:
  the injected `random()` thunk becomes the value it returns, and the HTTP
  transport becomes an explicit stream of per-attempt outcomes.
-/

namespace ArenaMcp

/-- Model of the parsed JSON values that flow through normalize.ts. -/
inductive JsValue where
  | null
  | bool (flag : Bool)
  | num (value : Rat)
  | str (text : String)
  | arr (elements : List JsValue)
  | obj (entries : List (String × JsValue))

/-- Field access on a record obtained via `asRecord`: `asRecord(value)[key]`.
Non-objects coerce to the empty record (`asRecord` in normalize.ts), and a
missing key is JavaScript `undefined`, which every downstream helper treats
like `null`. JSON arrays only carry numeric index keys, and no named key the
source ever reads, so they also yield `null` here. -/
def JsValue.getField : JsValue → String → JsValue
  | .obj fields, key =>
    match fields.find? (fun f => f.1 = key) with
    | some f => f.2
    | none => .null
  | _, _ => .null

/-- Number of enumerable own keys of `asRecord(value)` (`Object.keys(record).length`
in normalize.ts). For an object this is its field count, for an array its
index count, and `0` for every other value (which `asRecord` maps to `{}`). -/
def JsValue.keysCount : JsValue → Nat
  | .obj fields => fields.length
  | .arr items => items.length
  | _ => 0

/-- Model of `asString` (normalize.ts): a value is kept only when it is a string. -/
def asString : JsValue → Option String
  | .str s => some s
  | _ => none

/-- Model of `asNumber` (normalize.ts): a value is kept only when it is a finite
number; every modelled number is finite. -/
def asNumber : JsValue → Option Rat
  | .num q => some q
  | _ => none

/-- Model of `asBoolean` (normalize.ts). -/
def asBoolean : JsValue → Option Bool
  | .bool b => some b
  | _ => none

/-- Model of `asArray` (normalize.ts): non-arrays coerce to the empty list. -/
def asArray : JsValue → List JsValue
  | .arr items => items
  | _ => []

/-- JavaScript falsiness of a `string | null` value: `null` and the empty
string are falsy, every other string is truthy. -/
def jsStrFalsy : Option String → Bool
  | none => true
  | some s => s = ""

/-- JavaScript `String(n)` for the (integer-valued) numbers the code
stringifies; integer rationals print without a denominator. -/
def jsNumToString (q : Rat) : String :=
  if q.den = 1 then toString q.num else toString q

/-! ### JavaScript string primitives

The string methods the source uses (`trim`, `toLowerCase`, `split`, `join`)
are modelled by structurally recursive functions on character lists so that
concrete executions reduce inside the kernel. They agree with JavaScript on
the ASCII inputs the claims exercise. -/

/-- Whitespace removed by JavaScript `String.prototype.trim` (ASCII range). -/
def isWhiteChar (c : Char) : Bool :=
  [9, 10, 11, 12, 13, 32].contains c.toNat

/-- Model of `String.prototype.trim`. -/
def jsTrim (s : String) : String :=
  String.mk (((s.data.dropWhile isWhiteChar).reverse.dropWhile isWhiteChar).reverse)

/-- ASCII lowercasing of one character (JavaScript `toLowerCase`). -/
def lowerChar (c : Char) : Char :=
  if 'A' ≤ c && c ≤ 'Z' then Char.ofNat (c.toNat + 32) else c

/-- Model of `String.prototype.toLowerCase` (ASCII range). -/
def jsToLower (s : String) : String :=
  String.mk (s.data.map lowerChar)

/-- Splitting on a non-empty separator, fuel-indexed so that it reduces
structurally; the fuel is instantiated with the input length plus one, which
the loop never exhausts since every step consumes at least one character. -/
def splitSepChars (sep : List Char) : Nat → List Char → List Char → List (List Char)
  | 0, _, acc => [acc.reverse]
  | _ + 1, [], acc => [acc.reverse]
  | fuel + 1, c :: rest, acc =>
    if sep.isPrefixOf (c :: rest) then
      acc.reverse :: splitSepChars sep fuel (rest.drop (sep.length - 1)) []
    else
      splitSepChars sep fuel rest (c :: acc)

/-- Model of `String.prototype.split` with a non-empty string separator. -/
def jsSplitOn (s sep : String) : List String :=
  if sep.data.isEmpty then [s]
  else (splitSepChars sep.data (s.data.length + 1) s.data []).map String.mk

/-- Model of `Array.prototype.join` on strings. -/
def jsJoin (sep : String) (parts : List String) : String :=
  String.mk (List.intercalate sep.data (parts.map String.data))

/-! ## Markdown normalization (normalize.ts, `normalizeMarkdown`) -/

/-- Normalized markdown triple; all three representations are plain strings. -/
structure NormalizedMarkdown where
  markdown : String
  html : String
  plain : String
deriving DecidableEq

/-- The record branch of `normalizeMarkdown` (normalize.ts lines 54-65): the
three string fields are read and the whole value is `null` when all three are
JavaScript-falsy (`!markdown && !html && !plain`, so absent, non-string, or
empty-string); otherwise each output is back-filled through the source's `??`
chains. -/
def normalizeMarkdownRecord (v : JsValue) : Option NormalizedMarkdown :=
  if jsStrFalsy (asString (v.getField "markdown")) &&
      jsStrFalsy (asString (v.getField "html")) &&
      jsStrFalsy (asString (v.getField "plain")) then none
  else
    some {
      markdown := (((asString (v.getField "markdown")).orElse fun _ =>
        asString (v.getField "plain")).orElse fun _ =>
        asString (v.getField "html")).getD ""
      html := (((asString (v.getField "html")).orElse fun _ =>
        asString (v.getField "markdown")).orElse fun _ =>
        asString (v.getField "plain")).getD ""
      plain := (((asString (v.getField "plain")).orElse fun _ =>
        asString (v.getField "markdown")).orElse fun _ =>
        asString (v.getField "html")).getD ""
    }

/-- Model of `normalizeMarkdown` (normalize.ts lines 43-66): `null`/`undefined`
normalize to `null`; a bare string becomes all three representations; every
other value goes through the record branch. -/
def normalizeMarkdown (value : JsValue) : Option NormalizedMarkdown :=
  match value with
  | .null => none
  | .str s => some ⟨s, s, s⟩
  | v => normalizeMarkdownRecord v

/-! ## Retry delay (client.ts, `computeRetryDelayMs`) -/

/-- Parameter object of `computeRetryDelayMs`; the injected `random` thunk is
determinised to the value it produces on this call. -/
structure RetryDelayInput where
  attempt : Nat
  baseMs : Rat
  retryAfterSeconds : Option Rat
  random : Rat

/-- Model of `computeRetryDelayMs` (client.ts lines 108-120): an upstream
retry-after hint is authoritative (`Math.ceil(seconds * 1000)`); otherwise
exponential backoff `baseMs * 2 ** attempt` plus jitter
`Math.floor(random() * baseMs)`. -/
def computeRetryDelayMs (params : RetryDelayInput) : Rat :=
  match params.retryAfterSeconds with
  | some seconds => ((Int.ceil (seconds * 1000) : Int) : Rat)
  | none =>
    let exponential := params.baseMs * 2 ^ params.attempt
    let jitter : Int := Int.floor (params.random * params.baseMs)
    exponential + (jitter : Rat)

/-! ## Typed API error (errors.ts, `ArenaApiError`) -/

/-- Model of `ArenaApiError` (errors.ts lines 7-27). -/
structure ArenaApiError where
  message : String
  status : Nat
  responseBody : JsValue
  retryAfterSeconds : Option Rat
  url : String

/-- Model of `isRetryableStatus` (errors.ts lines 110-112). -/
def isRetryableStatus (status : Nat) : Bool :=
  status == 429 || decide (500 ≤ status)

/-! ## Retrying request engine (client.ts, `ArenaClient.requestJson`) -/

/-- Outcome of a single `fetchImpl` call: either a response (abstracted to its
status, parsed `Retry-After` hint and parsed body) or a rejection that is not
an `ArenaApiError` (network error / abort). -/
inductive HttpOutcome where
  | response (status : Nat) (retryAfterSeconds : Option Rat) (body : JsValue)
  | netFailure

/-- Errors thrown out of `requestJson`: the typed `ArenaApiError`, the
re-thrown underlying non-Arena error, or the unreachable
`"Request retry loop ended unexpectedly."` error after the loop. -/
inductive ReqError where
  | api (e : ArenaApiError)
  | net
  | loopEnded

/-- The message `requestJson` gives a failed response's `ArenaApiError`. -/
def failMessage (status : Nat) : String :=
  "Are.na API request failed with " ++ toString status

/-- JavaScript `Response.ok`: status in the range 200-299. -/
def httpOk (status : Nat) : Bool :=
  decide (200 ≤ status) && decide (status < 300)

/-- Model of the retry loop body of `ArenaClient.requestJson` (client.ts lines
341-418). `outcomes i` is the result of the HTTP call made with `attempt = i`.
Returns the number of HTTP calls issued paired with the result; `.ok none` is
the `undefined` no-content sentinel, `.ok (some body)` the parsed body. The
backoff delay is computed and slept in the source but has no observable
effect in this determinised model. `fuel` bounds the recursion; `requestJson`
starts it at `maxRetries + 1`, which the loop never exhausts because every
`continue` requires `attempt < maxRetries` before incrementing `attempt`. -/
def requestLoop (maxRetries : Nat) (expectNoContent : Bool) (url : String)
    (outcomes : Nat → HttpOutcome) :
    Nat → Nat → Nat × Except ReqError (Option JsValue)
  | 0, _ => (0, .error .loopEnded)
  | fuel + 1, attempt =>
    match outcomes attempt with
    | .response status retryAfter body =>
      if expectNoContent && status == 204 then (1, .ok none)
      else
        let parsedBody := if status == 204 then JsValue.null else body
        if !httpOk status then
          if isRetryableStatus status && decide (attempt < maxRetries) then
            let rest := requestLoop maxRetries expectNoContent url outcomes fuel (attempt + 1)
            (rest.1 + 1, rest.2)
          else
            (1, .error (.api ⟨failMessage status, status, parsedBody, retryAfter, url⟩))
        else (1, .ok (some parsedBody))
    | .netFailure =>
      if decide (maxRetries ≤ attempt) then (1, .error .net)
      else
        let rest := requestLoop maxRetries expectNoContent url outcomes fuel (attempt + 1)
        (rest.1 + 1, rest.2)

/-- Model of one `requestJson` call: run the retry loop from `attempt = 0`. -/
def requestJsonModel (maxRetries : Nat) (expectNoContent : Bool) (url : String)
    (outcomes : Nat → HttpOutcome) : Nat × Except ReqError (Option JsValue) :=
  requestLoop maxRetries expectNoContent url outcomes (maxRetries + 1) 0

/-! ## Query serialization (client.ts, `appendQuery`) -/

/-- Scalar query-parameter values that occur in the source's query records. -/
inductive QueryScalar where
  | undef
  | null
  | str (s : String)
  | num (n : Int)
  | boolVal (b : Bool)
deriving DecidableEq

/-- Query-parameter values: scalars, or arrays of scalars (the only array
shape the source ever places in a query record). -/
inductive QueryValue where
  | scalar (s : QueryScalar)
  | arr (items : List QueryScalar)
deriving DecidableEq

/-- JavaScript `String(value)` on a scalar query value. Numeric query
parameters in the source are integers, stringified without a fraction. -/
def scalarToString : QueryScalar → String
  | .undef => "undefined"
  | .null => "null"
  | .str s => s
  | .num n => toString n
  | .boolVal b => if b then "true" else "false"

/-- Element stringification used by `Array.prototype.join`: `null` and
`undefined` elements become the empty string. -/
def joinElemString : QueryScalar → String
  | .undef => ""
  | .null => ""
  | v => scalarToString v

/-- Model of `URLSearchParams.set`: replace the value of an existing key,
otherwise append the pair. (The source feeds it `Object.entries` of a record,
so keys are pairwise distinct and replacement never fires.) -/
def setParam (pairs : List (String × String)) (key value : String) :
    List (String × String) :=
  if pairs.any (fun p => p.1 = key) then
    pairs.map (fun p => if p.1 = key then (key, value) else p)
  else pairs ++ [(key, value)]

/-- One iteration of the serialization loop of `appendQuery` (client.ts lines
128-140): `undefined`/`null` values and empty arrays are skipped; a non-empty
array is joined with commas under its single key; every other value is
stringified. -/
def serializeQueryStep (acc : List (String × String)) (kv : String × QueryValue) :
    List (String × String) :=
  match kv.2 with
  | .scalar .undef => acc
  | .scalar .null => acc
  | .scalar v => setParam acc kv.1 (scalarToString v)
  | .arr [] => acc
  | .arr items => setParam acc kv.1 (jsJoin "," (items.map joinElemString))

/-- Model of the serialization loop of `appendQuery` (client.ts lines
122-143): the ordered key/value pairs accumulated in the `URLSearchParams`.
The final percent-encoding `toString` is not modelled: the claims concern
which keys and joined values are serialized. -/
def serializedQueryPairs (query : List (String × QueryValue)) :
    List (String × String) :=
  query.foldl serializeQueryStep []

/-- The pair (if any) that one query entry contributes: the closed form of
`serializeQueryStep` on a key the accumulator does not yet contain. -/
def queryEntryPair (kv : String × QueryValue) : Option (String × String) :=
  match kv.2 with
  | .scalar .undef => none
  | .scalar .null => none
  | .scalar v => some (kv.1, scalarToString v)
  | .arr [] => none
  | .arr items => some (kv.1, jsJoin "," (items.map joinElemString))

/-! ## Normalized entity model (src/arena/types.ts shapes, built in normalize.ts) -/

/-- Embedded user summary (`NormalizedEmbeddedUser`). -/
structure NormalizedEmbeddedUser where
  id : Rat
  slug : String
  name : String
  avatar : Option String
  initials : Option String
deriving DecidableEq

/-- Model of `normalizeEmbeddedUser` (normalize.ts lines 90-107): requires
`id`, `slug` and `name` to parse, else the whole value is `null`. -/
def normalizeEmbeddedUser (value : JsValue) : Option NormalizedEmbeddedUser :=
  match asNumber (value.getField "id"), asString (value.getField "slug"),
      asString (value.getField "name") with
  | some id, some slug, some name =>
    some ⟨id, slug, name, asString (value.getField "avatar"),
      asString (value.getField "initials")⟩
  | _, _, _ => none

/-- Connection context (`NormalizedConnectionContext`). -/
structure NormalizedConnectionContext where
  id : Rat
  position : Option Rat
  pinned : Option Bool
  connectedAt : Option String
  connectedBy : Option NormalizedEmbeddedUser
deriving DecidableEq

/-- Model of `normalizeConnectionContext` (normalize.ts lines 109-122). -/
def normalizeConnectionContext (value : JsValue) : Option NormalizedConnectionContext :=
  match asNumber (value.getField "id") with
  | none => none
  | some id =>
    some ⟨id, asNumber (value.getField "position"), asBoolean (value.getField "pinned"),
      asString (value.getField "connected_at"),
      normalizeEmbeddedUser (value.getField "connected_by")⟩

/-- Image payload (`NormalizedImage`). -/
structure NormalizedImage where
  src : Option String
  small : Option String
  medium : Option String
  large : Option String
  square : Option String
  altText : Option String
  width : Option Rat
  height : Option Rat
  contentType : Option String
  filename : Option String
  fileSize : Option Rat
deriving DecidableEq

/-- Model of `normalizeImage` (normalize.ts lines 124-146): a record with no
keys normalizes to `null`; otherwise the nested size variants' `url` fields
and the flat metadata fields are extracted. -/
def normalizeImage (value : JsValue) : Option NormalizedImage :=
  if value.keysCount = 0 then none
  else
    some ⟨asString (value.getField "src"),
      asString ((value.getField "small").getField "url"),
      asString ((value.getField "medium").getField "url"),
      asString ((value.getField "large").getField "url"),
      asString ((value.getField "square").getField "url"),
      asString (value.getField "alt_text"),
      asNumber (value.getField "width"),
      asNumber (value.getField "height"),
      asString (value.getField "content_type"),
      asString (value.getField "filename"),
      asNumber (value.getField "file_size")⟩

/-- Attachment payload (`NormalizedAttachment`). -/
structure NormalizedAttachment where
  url : String
  filename : Option String
  contentType : Option String
  fileSize : Option Rat
  fileExtension : Option String
deriving DecidableEq

/-- Model of `normalizeAttachment` (normalize.ts lines 148-161): requires a
string `url`, else the whole value is `null`. -/
def normalizeAttachment (value : JsValue) : Option NormalizedAttachment :=
  match asString (value.getField "url") with
  | none => none
  | some url =>
    some ⟨url, asString (value.getField "filename"),
      asString (value.getField "content_type"),
      asNumber (value.getField "file_size"),
      asString (value.getField "file_extension")⟩

/-- Embed payload (`NormalizedEmbed`). -/
structure NormalizedEmbed where
  url : Option String
  sourceUrl : Option String
  html : Option String
  title : Option String
  type : Option String
  authorName : Option String
deriving DecidableEq

/-- Model of `normalizeEmbed` (normalize.ts lines 163-176): a record with no
keys normalizes to `null`. -/
def normalizeEmbed (value : JsValue) : Option NormalizedEmbed :=
  if value.keysCount = 0 then none
  else
    some ⟨asString (value.getField "url"), asString (value.getField "source_url"),
      asString (value.getField "html"), asString (value.getField "title"),
      asString (value.getField "type"), asString (value.getField "author_name")⟩

/-- Channel counts (`NormalizedChannelCounts`), all-or-nothing. -/
structure NormalizedChannelCounts where
  blocks : Rat
  channels : Rat
  contents : Rat
  collaborators : Rat
deriving DecidableEq

/-- Model of `normalizeChannelCounts` (normalize.ts lines 178-193). -/
def normalizeChannelCounts (value : JsValue) : Option NormalizedChannelCounts :=
  match asNumber (value.getField "blocks"), asNumber (value.getField "channels"),
      asNumber (value.getField "contents"), asNumber (value.getField "collaborators") with
  | some blocks, some channels, some contents, some collaborators =>
    some ⟨blocks, channels, contents, collaborators⟩
  | _, _, _, _ => none

/-- Normalized channel (`NormalizedChannel`); `type` is always `"Channel"`. -/
structure NormalizedChannel where
  type : String
  id : Rat
  slug : String
  title : String
  description : Option NormalizedMarkdown
  state : Option String
  visibility : Option String
  createdAt : Option String
  updatedAt : Option String
  owner : Option NormalizedEmbeddedUser
  counts : Option NormalizedChannelCounts
  connection : Option NormalizedConnectionContext
deriving DecidableEq

/-- Model of `normalizeChannelFromV3` (normalize.ts lines 195-213): missing
`id` degrades to `0`, missing `slug` to the stringified id, missing `title`
to `"Channel <id>"`. -/
def normalizeChannelFromV3 (value : JsValue) : NormalizedChannel :=
  let id := (asNumber (value.getField "id")).getD 0
  let slug := (asString (value.getField "slug")).getD (jsNumToString id)
  { type := "Channel"
    id := id
    slug := slug
    title := (asString (value.getField "title")).getD ("Channel " ++ jsNumToString id)
    description := normalizeMarkdown (value.getField "description")
    state := asString (value.getField "state")
    visibility := asString (value.getField "visibility")
    createdAt := asString (value.getField "created_at")
    updatedAt := asString (value.getField "updated_at")
    owner := normalizeEmbeddedUser (value.getField "owner")
    counts := normalizeChannelCounts (value.getField "counts")
    connection := normalizeConnectionContext (value.getField "connection") }

/-- The recognized block type tags (normalize.ts line 220). -/
def blockTypeNames : List String :=
  ["Text", "Image", "Link", "Attachment", "Embed", "PendingBlock"]

/-- Normalized block (`NormalizedBlock`). -/
structure NormalizedBlock where
  type : String
  id : Rat
  title : Option String
  description : Option NormalizedMarkdown
  state : Option String
  visibility : Option String
  commentCount : Option Rat
  createdAt : Option String
  updatedAt : Option String
  user : Option NormalizedEmbeddedUser
  sourceUrl : Option String
  sourceTitle : Option String
  content : Option NormalizedMarkdown
  image : Option NormalizedImage
  attachment : Option NormalizedAttachment
  embed : Option NormalizedEmbed
  connection : Option NormalizedConnectionContext
deriving DecidableEq

/-- Model of `normalizeBlockFromV3` (normalize.ts lines 215-245): an
unrecognized (or missing) `type` coerces to `"PendingBlock"`; the four
type-specific payloads are each normalized from their own upstream field. -/
def normalizeBlockFromV3 (value : JsValue) : NormalizedBlock :=
  let id := (asNumber (value.getField "id")).getD 0
  let typeRaw := (asString (value.getField "type")).getD "PendingBlock"
  let type := if blockTypeNames.contains typeRaw then typeRaw else "PendingBlock"
  let source := value.getField "source"
  { type := type
    id := id
    title := asString (value.getField "title")
    description := normalizeMarkdown (value.getField "description")
    state := asString (value.getField "state")
    visibility := asString (value.getField "visibility")
    commentCount := asNumber (value.getField "comment_count")
    createdAt := asString (value.getField "created_at")
    updatedAt := asString (value.getField "updated_at")
    user := normalizeEmbeddedUser (value.getField "user")
    sourceUrl := asString (source.getField "url")
    sourceTitle := asString (source.getField "title")
    content := normalizeMarkdown (value.getField "content")
    image := normalizeImage (value.getField "image")
    attachment := normalizeAttachment (value.getField "attachment")
    embed := normalizeEmbed (value.getField "embed")
    connection := normalizeConnectionContext (value.getField "connection") }

/-- Number of populated type-specific payloads of a normalized block, among
`content`, `image`, `attachment` and `embed`. -/
def countPopulatedPayloads (b : NormalizedBlock) : Nat :=
  (if b.content.isSome then 1 else 0) + (if b.image.isSome then 1 else 0) +
    (if b.attachment.isSome then 1 else 0) + (if b.embed.isSome then 1 else 0)

/-! ## Pagination meta (normalize.ts, `normalizePaginationMeta`) -/

/-- Pagination metadata (`PaginationMeta`). -/
structure PaginationMeta where
  currentPage : Rat
  nextPage : Option Rat
  prevPage : Option Rat
  perPage : Rat
  totalPages : Rat
  totalCount : Rat
  hasMorePages : Bool
deriving DecidableEq

/-- Model of `normalizePaginationMeta` (normalize.ts lines 68-88): trusts an
explicit `has_more_pages` boolean, otherwise derives it from
`next_page !== null && next_page > 0`. -/
def normalizePaginationMeta (value : JsValue) : PaginationMeta :=
  let nextPage := asNumber (value.getField "next_page")
  let hasMorePagesDerived : Bool :=
    match nextPage with
    | some n => decide (0 < n)
    | none => false
  { currentPage := (asNumber (value.getField "current_page")).getD 1
    nextPage := nextPage
    prevPage := asNumber (value.getField "prev_page")
    perPage := (asNumber (value.getField "per_page")).getD 0
    totalPages := (asNumber (value.getField "total_pages")).getD 1
    totalCount := (asNumber (value.getField "total_count")).getD 0
    hasMorePages := (asBoolean (value.getField "has_more_pages")).getD hasMorePagesDerived }

/-! ## Search normalization (normalize.ts, search items and responses) -/

/-- Normalized search item (`NormalizedSearchItem`); `raw` keeps the upstream
record untouched. -/
structure NormalizedSearchItem where
  id : Rat
  entityType : String
  title : String
  subtitle : Option String
  slug : Option String
  blockType : Option String
  url : Option String
  raw : JsValue

/-- Model of `inferUrl` (normalize.ts lines 295-309): a falsy slug yields no
URL; channels, users and groups get their canonical web URLs. -/
def inferUrl (entityType : String) (slug : Option String) : Option String :=
  if jsStrFalsy slug then none
  else
    let s := slug.getD ""
    if entityType = "Channel" then some ("https://www.are.na/channel/" ++ s)
    else if entityType = "User" then some ("https://www.are.na/" ++ s)
    else if entityType = "Group" then some ("https://www.are.na/group/" ++ s)
    else none

/-- Model of `normalizeSearchItemFromV3` (normalize.ts lines 311-375). -/
def normalizeSearchItemFromV3 (value : JsValue) : NormalizedSearchItem :=
  let type := asString (value.getField "type")
  let id := (asNumber (value.getField "id")).getD 0
  if type = some "Channel" then
    let slug := asString (value.getField "slug")
    { id := id
      entityType := "Channel"
      title := (asString (value.getField "title")).getD ("Channel " ++ jsNumToString id)
      subtitle := if jsStrFalsy slug then none else some ("channel/" ++ slug.getD "")
      slug := slug
      blockType := none
      url := inferUrl "Channel" slug
      raw := value }
  else if type = some "User" then
    let slug := asString (value.getField "slug")
    { id := id
      entityType := "User"
      title := (asString (value.getField "name")).getD ("User " ++ jsNumToString id)
      subtitle := if jsStrFalsy slug then none else some ("@" ++ slug.getD "")
      slug := slug
      blockType := none
      url := inferUrl "User" slug
      raw := value }
  else if type = some "Group" then
    let slug := asString (value.getField "slug")
    { id := id
      entityType := "Group"
      title := (asString (value.getField "name")).getD ("Group " ++ jsNumToString id)
      subtitle := if jsStrFalsy slug then none else some ("group/" ++ slug.getD "")
      slug := slug
      blockType := none
      url := inferUrl "Group" slug
      raw := value }
  else
    let blockTypeRaw := (asString (value.getField "type")).getD "PendingBlock"
    let blockType :=
      if blockTypeNames.contains blockTypeRaw then blockTypeRaw else "PendingBlock"
    { id := id
      entityType := "Block"
      title := (asString (value.getField "title")).getD (blockType ++ " block " ++ jsNumToString id)
      subtitle := asString ((value.getField "source").getField "url")
      slug := none
      blockType := some blockType
      url := none
      raw := value }

/-- Normalized search result (`NormalizedSearchResult`). -/
structure NormalizedSearchResult where
  sourceApi : String
  items : List NormalizedSearchItem
  meta : PaginationMeta

/-- Model of `normalizeSearchResponseV3` (normalize.ts lines 377-384): the
result of a successful primary (v3) search, tagged `sourceApi = "v3"`. -/
def normalizeSearchResponseV3 (response : JsValue) : NormalizedSearchResult :=
  { sourceApi := "v3"
    items := (asArray (response.getField "data")).map normalizeSearchItemFromV3
    meta := normalizePaginationMeta (response.getField "meta") }

/-- Model of `normalizeSearchItemFromV2` (normalize.ts lines 386-437): the
legacy payload uses `full_name`/`username` for users and `class` for block
types. -/
def normalizeSearchItemFromV2 (entityType : String) (value : JsValue) :
    NormalizedSearchItem :=
  let id := (asNumber (value.getField "id")).getD 0
  let slug := asString (value.getField "slug")
  if entityType = "Channel" then
    { id := id
      entityType := entityType
      title := (asString (value.getField "title")).getD ("Channel " ++ jsNumToString id)
      subtitle := if jsStrFalsy slug then none else some ("channel/" ++ slug.getD "")
      slug := slug
      blockType := none
      url := inferUrl "Channel" slug
      raw := value }
  else if entityType = "User" then
    { id := id
      entityType := entityType
      title := (((asString (value.getField "full_name")).orElse
        fun _ => asString (value.getField "username")).getD ("User " ++ jsNumToString id))
      subtitle := if jsStrFalsy slug then none else some ("@" ++ slug.getD "")
      slug := slug
      blockType := none
      url := inferUrl "User" slug
      raw := value }
  else
    let blockClass := (asString (value.getField "class")).getD "PendingBlock"
    let blockType :=
      if blockTypeNames.contains blockClass then blockClass else "PendingBlock"
    { id := id
      entityType := "Block"
      title := (asString (value.getField "title")).getD (blockType ++ " block " ++ jsNumToString id)
      subtitle := asString ((value.getField "source").getField "url")
      slug := none
      blockType := some blockType
      url := none
      raw := value }

/-- Model of `normalizeSearchResponseV2` (normalize.ts lines 439-465): the
legacy payload's separately keyed `blocks`/`channels`/`users` arrays are
concatenated in that order, pagination is synthesized from
`current_page`/`total_pages`, and the result is tagged
`sourceApi = "v2-fallback"`. -/
def normalizeSearchResponseV2 (response : JsValue) : NormalizedSearchResult :=
  let per := (asNumber (response.getField "per")).getD 24
  let currentPage := (asNumber (response.getField "current_page")).getD 1
  let totalPages := (asNumber (response.getField "total_pages")).getD 1
  let length := (asNumber (response.getField "length")).getD 0
  let blockItems :=
    (asArray (response.getField "blocks")).map (normalizeSearchItemFromV2 "Block")
  let channelItems :=
    (asArray (response.getField "channels")).map (normalizeSearchItemFromV2 "Channel")
  let userItems :=
    (asArray (response.getField "users")).map (normalizeSearchItemFromV2 "User")
  { sourceApi := "v2-fallback"
    items := blockItems ++ channelItems ++ userItems
    meta :=
      { currentPage := currentPage
        nextPage := if currentPage < totalPages then some (currentPage + 1) else none
        prevPage := if 1 < currentPage then some (currentPage - 1) else none
        perPage := per
        totalPages := totalPages
        totalCount := length
        hasMorePages := decide (currentPage < totalPages) } }

/-! ## Search fallback policy (client.ts, `ArenaClient.search`) -/

/-- Errors observable from a client call: the typed `ArenaApiError` or any
other thrown error. -/
inductive ClientError where
  | api (e : ArenaApiError)
  | other (message : String)

namespace ArenaClient

/-- Model of `ArenaClient.search` (client.ts lines 245-260). The two
`requestJson`-backed calls `searchV3`/`searchV2` are determinised to the
outcomes they would produce for the given params. A primary failure that is a
typed `ArenaApiError` with status exactly 403 while the v2 fallback is
enabled in configuration triggers the legacy search; every other failure
propagates unchanged. -/
def search (fallbackEnabled : Bool) (v3Outcome : Except ClientError JsValue)
    (v2Outcome : Except ClientError JsValue) :
    Except ClientError NormalizedSearchResult :=
  match v3Outcome with
  | .ok payload => .ok (normalizeSearchResponseV3 payload)
  | .error e =>
    match e with
    | .api ae =>
      if ae.status == 403 && fallbackEnabled then
        match v2Outcome with
        | .ok fallbackPayload => .ok (normalizeSearchResponseV2 fallbackPayload)
        | .error e2 => .error e2
      else .error (.api ae)
    | .other m => .error (.other m)

end ArenaClient

/-! ## Channel identifier resolver (tools-read.ts lines 395-604)

The two network oracles of `resolveChannelFromInput` are determinised:
`getChannel` maps an id-or-slug to the outcome `arenaClient.getChannel` would
produce for it, and `search` maps search params to the outcome
`arenaClient.search` would produce. Errors are typed rather than
discriminated by message substring: the source's
`error.message.includes("Channel owner mismatch")` checks correspond to
matching the dedicated constructors below. -/

/-- Result of `normalizeChannelInput`. -/
structure ChannelInputNormalization where
  normalized : String
  usedUrlExtraction : Bool
  expectedOwnerSlug : Option String
deriving DecidableEq

/-- Model of `normalizeOwnerSlugInput` (tools-read.ts lines 453-477): split on
`/`, trim and drop empty segments; two or more segments mean `owner/slug`
(the owner lowercased, an empty owner degrading to no expectation), anything
else is the raw identifier. -/
def normalizeOwnerSlugInput (input : String) : ChannelInputNormalization :=
  let trimmed := jsTrim input
  let segments := ((jsSplitOn trimmed "/").map jsTrim).filter (fun s => 0 < s.data.length)
  match segments with
  | seg0 :: seg1 :: _ =>
    let owner := jsToLower seg0
    ⟨seg1, false, if owner = "" then none else some owner⟩
  | _ => ⟨trimmed, false, none⟩

/-- Value of one hexadecimal digit (case-insensitive), as used by
percent-decoding; the branches work on character codes (48-57 are the
digits, 97-102 lowercase a-f, 65-70 uppercase A-F). -/
def hexDigitValue (c : Char) : Option Nat :=
  let code := c.toNat
  if 48 ≤ code ∧ code ≤ 57 then some (code - 48)
  else if 97 ≤ code ∧ code ≤ 102 then some (code - 87)
  else if 65 ≤ code ∧ code ≤ 70 then some (code - 55)
  else none

/-- Percent-decoding on a character list; `none` models a thrown `URIError`.
Multi-byte (non-ASCII) escapes are out of scope of this model and also map
to `none`; the identifiers the claims exercise are ASCII. -/
def percentDecodeChars : List Char → Option (List Char)
  | [] => some []
  | '%' :: h1 :: h2 :: rest =>
    match hexDigitValue h1, hexDigitValue h2 with
    | some a, some b =>
      let byte := a * 16 + b
      if byte < 128 then (percentDecodeChars rest).map (fun cs => Char.ofNat byte :: cs)
      else none
    | _, _ => none
  | '%' :: _ => none
  | c :: rest => (percentDecodeChars rest).map (fun cs => c :: cs)

/-- Model of JavaScript `decodeURIComponent`; `none` models a thrown
`URIError`, which the source's surrounding `try` turns into the
owner/slug-string fallback. -/
def decodeURIComponentModel (s : String) : Option String :=
  (percentDecodeChars s.toList).map String.mk

/-- Hostname and pathname extracted from an absolute URL. -/
structure UrlParts where
  hostname : String
  pathname : String
deriving DecidableEq

/-- Whether a string is a valid URL scheme (letter followed by
letters/digits/`+`/`-`/`.`). -/
def schemeOk (scheme : String) : Bool :=
  match scheme.toList with
  | [] => false
  | c :: rest =>
    c.isAlpha && rest.all (fun d => d.isAlphanum || d == '+' || d == '-' || d == '.')

/-- Simplified model of the WHATWG `new URL` constructor for the
`scheme://[userinfo@]host[:port][/path][?query][#fragment]` shapes the
resolver cares about; `none` models a thrown `TypeError`. Inputs without an
authority component route to the same owner/slug fallback either way, so
modelling them as parse failures is observationally faithful. -/
def parseUrlModel (input : String) : Option UrlParts :=
  match jsSplitOn input "://" with
  | scheme :: rest0 :: restMore =>
    if schemeOk scheme then
      let remainder := (jsJoin "://" (rest0 :: restMore)).data
      let authority := remainder.takeWhile (fun c => c != '/' && c != '?' && c != '#')
      let afterAuthority := remainder.drop authority.length
      let pathname := afterAuthority.takeWhile (fun c => c != '?' && c != '#')
      let hostPort := (jsSplitOn (String.mk authority) "@").getLastD (String.mk authority)
      let hostname := (jsSplitOn hostPort ":").headD hostPort
      some ⟨hostname, String.mk pathname⟩
    else none
  | _ => none

/-- The `try` body of `normalizeChannelInput` (tools-read.ts lines 413-447):
parse the trimmed input as a URL; `none` means a throw (URL parse or
percent-decode failure), which the `catch` turns into
`normalizeOwnerSlugInput`. A non-are.na host, an empty path and a `block/...`
path return the owner/slug fallback directly; a `channel/{slug}` path yields
the slug with no owner expectation; a two-segment `{owner}/{slug}` path
yields the slug with a lowercased expected owner; a single other segment is
the identifier itself. -/
def channelInputFromUrl (trimmed : String) : Option ChannelInputNormalization :=
  match parseUrlModel trimmed with
  | none => none
  | some parsed =>
    let host := jsToLower parsed.hostname
    if host ≠ "are.na" ∧ host ≠ "www.are.na" then some (normalizeOwnerSlugInput trimmed)
    else
      let segments := ((jsSplitOn parsed.pathname "/").map jsTrim).filter
        (fun s => 0 < s.data.length)
      match segments with
      | [] => some (normalizeOwnerSlugInput trimmed)
      | [seg0] =>
        if seg0 = "block" then some (normalizeOwnerSlugInput trimmed)
        else (decodeURIComponentModel seg0).map (fun n => ⟨n, true, none⟩)
      | seg0 :: seg1 :: _ =>
        if seg0 = "channel" then
          (decodeURIComponentModel seg1).map (fun n => ⟨n, true, none⟩)
        else if seg0 = "block" then some (normalizeOwnerSlugInput trimmed)
        else
          match decodeURIComponentModel seg1, decodeURIComponentModel seg0 with
          | some n, some o =>
            let owner := jsToLower o
            some ⟨n, true, if owner = "" then none else some owner⟩
          | _, _ => none

/-- Model of `normalizeChannelInput` (tools-read.ts lines 403-451). -/
def normalizeChannelInput (input : String) : ChannelInputNormalization :=
  let trimmed := jsTrim input
  if trimmed.data.length = 0 then ⟨trimmed, false, none⟩
  else
    match channelInputFromUrl trimmed with
    | some r => r
    | none => normalizeOwnerSlugInput trimmed

/-- Errors observable from channel resolution. -/
inductive ResolveError where
  | api (e : ArenaApiError)
  | ownerVerificationFailed (message : String)
  | ownerMismatch (message : String)
  | ambiguousChannel (message : String)
  | other (message : String)

/-- Message of the owner-verification failure (tools-read.ts lines 489-492). -/
def ownerVerificationMessage (rawInput expected : String) : String :=
  "Channel owner verification failed for \"" ++ rawInput ++ "\". Expected owner \"" ++
    expected ++ "\", but the API did not return an owner slug."

/-- Message of the owner-mismatch failure (tools-read.ts lines 493-497). -/
def ownerMismatchMessage (rawInput expected actual : String) : String :=
  "Channel owner mismatch for \"" ++ rawInput ++ "\". Expected owner \"" ++ expected ++
    "\" but got \"" ++ actual ++ "\"."

/-- Model of `assertChannelOwnerMatch` (tools-read.ts lines 479-498): no (or a
falsy) expectation passes; a missing or empty owner slug on the channel fails
verification; a lowercased slug differing from the expectation fails with a
mismatch. -/
def assertChannelOwnerMatch (channel : NormalizedChannel)
    (expectedOwnerSlug : Option String) (rawInput : String) : Except ResolveError Unit :=
  if jsStrFalsy expectedOwnerSlug then .ok ()
  else
    let expected := expectedOwnerSlug.getD ""
    let actual := channel.owner.map (fun u => jsToLower u.slug)
    if jsStrFalsy actual then
      .error (.ownerVerificationFailed (ownerVerificationMessage rawInput expected))
    else if actual.getD "" ≠ expected then
      .error (.ownerMismatch (ownerMismatchMessage rawInput expected (actual.getD "")))
    else .ok ()

/-- Result of channel resolution (`ResolvedChannel`). -/
structure ResolvedChannel where
  channel : NormalizedChannel
  idOrSlug : String
  strategy : String
  searchSourceApi : Option String
  expectedOwnerSlug : Option String

/-- The candidates the resolver keeps from a fallback search: items whose
entity type is `Channel` (tools-read.ts lines 534-536). -/
def channelCandidatesOf (searchResult : NormalizedSearchResult) :
    List NormalizedSearchItem :=
  searchResult.items.filter (fun item => item.entityType == "Channel")

/-- Candidates whose slug case-insensitively equals the normalized identifier
(tools-read.ts lines 541-543). -/
def exactSlugMatchesOf (normalized : String)
    (channelCandidates : List NormalizedSearchItem) : List NormalizedSearchItem :=
  channelCandidates.filter (fun item =>
    match item.slug with
    | some s => jsToLower s == jsToLower normalized
    | none => false)

/-- Candidates whose trimmed title case-insensitively equals the trimmed
original input (tools-read.ts lines 559-561). -/
def exactTitleMatchesOf (rawInput : String)
    (channelCandidates : List NormalizedSearchItem) : List NormalizedSearchItem :=
  channelCandidates.filter (fun item =>
    jsToLower (jsTrim item.title) == jsToLower (jsTrim rawInput))

/-- Fetch-and-verify step shared by the three search strategies: look the
selected candidate up by `slug ?? String(id)`, verify the owner constraint,
and return it under the given strategy tag; any failure propagates. -/
def resolverFetchVerify (getChannel : String → Except ResolveError NormalizedChannel)
    (rawInput : String) (expectedOwnerSlug : Option String) (sourceApi : String)
    (strategy : String) (selected : NormalizedSearchItem) :
    Except ResolveError ResolvedChannel :=
  let idOrSlug :=
    match selected.slug with
    | some s => s
    | none => jsNumToString selected.id
  match getChannel idOrSlug with
  | .error e => .error e
  | .ok channel =>
    match assertChannelOwnerMatch channel expectedOwnerSlug rawInput with
    | .error e => .error e
    | .ok _ => .ok ⟨channel, idOrSlug, strategy, some sourceApi, expectedOwnerSlug⟩

/-- Message of the ambiguity failure (tools-read.ts lines 592-600), listing at
most the first five candidates. -/
def ambiguousChannelMessage (rawInput : String)
    (candidates : List NormalizedSearchItem) : String :=
  let choices := jsJoin "; " ((candidates.take 5).map (fun item =>
    item.title ++ " (slug: " ++ item.slug.getD "none" ++ ", id: " ++
      jsNumToString item.id ++ ")"))
  "Channel \"" ++ rawInput ++ "\" is ambiguous. Use an exact slug/id. Candidates: " ++
    choices

/-- The search-fallback portion of `resolveChannelFromInput` (tools-read.ts
lines 527-602), applied to the outcome of the scoped search: a unique exact
slug match wins, else a unique exact title match, else a sole candidate;
more than one remaining candidate is ambiguous, zero re-throws the original
not-found error. -/
def resolverSearchStep (getChannel : String → Except ResolveError NormalizedChannel)
    (rawInput normalized : String) (expectedOwnerSlug : Option String)
    (originalError : ResolveError)
    (searchOutcome : Except ResolveError NormalizedSearchResult) :
    Except ResolveError ResolvedChannel :=
  match searchOutcome with
  | .error e => .error e
  | .ok searchResult =>
    let channelCandidates := channelCandidatesOf searchResult
    match exactSlugMatchesOf normalized channelCandidates with
    | [selected] =>
      resolverFetchVerify getChannel rawInput expectedOwnerSlug searchResult.sourceApi
        "search-exact-slug" selected
    | _ =>
      match exactTitleMatchesOf rawInput channelCandidates with
      | [selected] =>
        resolverFetchVerify getChannel rawInput expectedOwnerSlug searchResult.sourceApi
          "search-exact-title" selected
      | _ =>
        match channelCandidates with
        | [selected] =>
          resolverFetchVerify getChannel rawInput expectedOwnerSlug searchResult.sourceApi
            "search-single" selected
        | [] => .error originalError
        | _ => .error (.ambiguousChannel (ambiguousChannelMessage rawInput channelCandidates))

/-- Search parameters (`SearchParams`); only the fields the resolver and the
search endpoints touch are modelled. -/
structure SearchParams where
  query : String
  type : Option String := none
  scope : Option String := none
  page : Option Rat := none
  per : Option Rat := none
  sort : Option String := none
deriving DecidableEq

/-- The exact parameters of the resolver's fallback search (tools-read.ts
lines 527-533): the original trimmed input, scoped to the caller's own
channels, top 10 results by relevance. -/
def fallbackSearchParamsFor (rawInput : String) : SearchParams :=
  { query := jsTrim rawInput
    type := some "Channel"
    scope := some "my"
    per := some 10
    sort := some "score_desc" }

/-- The `catch` clause of `resolveChannelFromInput` (tools-read.ts lines
516-603): owner errors and any error other than a typed 404 re-throw; a typed
404 triggers the scoped fallback search. -/
def resolverCatch (getChannel : String → Except ResolveError NormalizedChannel)
    (search : SearchParams → Except ResolveError NormalizedSearchResult)
    (rawInput : String) (norm : ChannelInputNormalization) (error : ResolveError) :
    Except ResolveError ResolvedChannel :=
  match error with
  | .ownerMismatch m => .error (.ownerMismatch m)
  | .ownerVerificationFailed m => .error (.ownerVerificationFailed m)
  | .api ae =>
    if ae.status == 404 then
      resolverSearchStep getChannel rawInput norm.normalized norm.expectedOwnerSlug
        (.api ae) (search (fallbackSearchParamsFor rawInput))
    else .error (.api ae)
  | .ambiguousChannel m => .error (.ambiguousChannel m)
  | .other m => .error (.other m)

/-- Model of `resolveChannelFromInput` (tools-read.ts lines 500-604):
normalize the input, attempt the direct lookup and owner verification, and
route any thrown error through the `catch` clause. -/
def resolveChannelFromInput (getChannel : String → Except ResolveError NormalizedChannel)
    (search : SearchParams → Except ResolveError NormalizedSearchResult)
    (rawInput : String) : Except ResolveError ResolvedChannel :=
  let norm := normalizeChannelInput rawInput
  match getChannel norm.normalized with
  | .error e => resolverCatch getChannel search rawInput norm e
  | .ok channel =>
    match assertChannelOwnerMatch channel norm.expectedOwnerSlug rawInput with
    | .error e => resolverCatch getChannel search rawInput norm e
    | .ok _ =>
      .ok ⟨channel, norm.normalized,
        if norm.usedUrlExtraction then "url-extracted" else "direct", none,
        norm.expectedOwnerSlug⟩

/-! ## Concurrency limiter (client.ts, `ConcurrencyLimiter`) -/

/-- The limiter's mutable state: the in-flight count and the FIFO queue of
pending waiter callbacks (identified here by caller ids). -/
structure LimiterState where
  active : Nat
  queue : List Nat
deriving DecidableEq

/-- Events on one limiter: a caller asking for a slot (`acquire`, client.ts
lines 63-74) and a running call completing (`release`, lines 76-82). -/
inductive LimiterEvent where
  | acquire (id : Nat)
  | release
deriving DecidableEq

/-- The limiter's initial state. -/
def limiterInit : LimiterState := ⟨0, []⟩

/-- One step of the limiter. `acquire` below the cap increments `active` and
runs immediately; at the cap the caller is appended to the queue. `release`
decrements `active`, then shifts the queue head, whose stored callback
re-increments `active` and resumes that caller; the second component reports
which queued caller (if any) was released. -/
def limiterStep (max : Nat) (s : LimiterState) :
    LimiterEvent → LimiterState × Option Nat
  | .acquire id =>
    if s.active < max then (⟨s.active + 1, s.queue⟩, none)
    else (⟨s.active, s.queue ++ [id]⟩, none)
  | .release =>
    match s.queue with
    | [] => (⟨s.active - 1, []⟩, none)
    | next :: rest => (⟨s.active - 1 + 1, rest⟩, some next)

/-- Run a trace of limiter events, returning the final state, the queued
callers released in order, and the callers that were queued in order. -/
def limiterRun (max : Nat) (s : LimiterState) :
    List LimiterEvent → LimiterState × List Nat × List Nat
  | [] => (s, [], [])
  | e :: rest =>
    let stepped := limiterStep max s e
    let queuedNow : List Nat :=
      match e with
      | .acquire id => if s.active < max then [] else [id]
      | .release => []
    let next := limiterRun max stepped.1 rest
    (next.1, stepped.2.toList ++ next.2.1, queuedNow ++ next.2.2)

/-- Validity of a trace: a `release` only happens while a call is in flight
(each release is issued by the `finally` of a call whose acquire completed). -/
def limiterValid (max : Nat) : LimiterState → List LimiterEvent → Bool
  | _, [] => true
  | s, e :: rest =>
    (match e with
      | .release => decide (0 < s.active)
      | .acquire _ => true) &&
    limiterValid max (limiterStep max s e).1 rest

/-! ## Auxiliary predicates and demo inputs used by the theorems -/

/-- A string is one of the representations supplied to `normalizeMarkdown`:
the bare-string input itself, or one of the three string fields of the
record input. -/
def suppliedRepresentation (v : JsValue) (x : String) : Prop :=
  v = .str x ∨ asString (v.getField "markdown") = some x ∨
    asString (v.getField "html") = some x ∨ asString (v.getField "plain") = some x

/-- The HTTP call at index `i` yields a response with a retryable status. -/
def retryFailureAt (outcomes : Nat → HttpOutcome) (i : Nat) : Prop :=
  ∃ s ra b, outcomes i = .response s ra b ∧ isRetryableStatus s = true

/-- Demo channel used by the resolver witnesses: owned by `Owner-Slug`. -/
def demoChannel : NormalizedChannel :=
  { type := "Channel", id := 7, slug := "my-channel", title := "My Channel"
    description := none, state := none, visibility := none, createdAt := none
    updatedAt := none, owner := some ⟨1, "Owner-Slug", "Owner", none, none⟩
    counts := none, connection := none }

/-- Demo search item matching `demoChannel` by slug (different case). -/
def demoItem : NormalizedSearchItem :=
  { id := 7, entityType := "Channel", title := "My Channel", subtitle := none
    slug := some "My-Channel", blockType := none, url := none, raw := .null }

/-- Demo search result holding exactly `demoItem`. -/
def demoSearchResult : NormalizedSearchResult :=
  { sourceApi := "v3", items := [demoItem], meta := ⟨1, none, none, 10, 1, 1, false⟩ }

/-- Demo `getChannel` oracle: only `My-Channel` exists, everything else 404s. -/
def demoGetChannel : String → Except ResolveError NormalizedChannel := fun s =>
  if s = "My-Channel" then .ok demoChannel
  else .error (.api ⟨"nf", 404, .null, none, "u"⟩)

/-- Demo search oracle: answers the resolver's fallback query for
`owner-slug/my-channel` with `demoSearchResult`. -/
def demoSearch : SearchParams → Except ResolveError NormalizedSearchResult := fun p =>
  if p = fallbackSearchParamsFor "owner-slug/my-channel" then .ok demoSearchResult
  else .error (.other "unexpected params")

/-! ## Theorems about the claims -/

/-- C4: `computeRetryDelayMs` returns exactly `ceil(retryAfterSeconds * 1000)`
milliseconds when a retry-after hint is present, independent of attempt,
base delay and the random function; otherwise it returns
`baseMs * 2 ^ attempt + floor(random() * baseMs)`. In particular a hint of 1
second yields 1000 ms, and attempt 2 with base 500 and random 0.5 and no
hint yields 2250 ms. -/
theorem claim_C4_retry_delay :
    (∀ (attempt : Nat) (baseMs rnd seconds : Rat),
      computeRetryDelayMs ⟨attempt, baseMs, some seconds, rnd⟩ =
        ((Int.ceil (seconds * 1000) : Int) : Rat)) ∧
    (∀ (attempt : Nat) (baseMs rnd : Rat),
      computeRetryDelayMs ⟨attempt, baseMs, none, rnd⟩ =
        baseMs * 2 ^ attempt + ((Int.floor (rnd * baseMs) : Int) : Rat)) ∧
    (∀ (attempt : Nat) (baseMs rnd : Rat),
      computeRetryDelayMs ⟨attempt, baseMs, some 1, rnd⟩ = 1000) ∧
    computeRetryDelayMs ⟨2, 500, none, 1/2⟩ = 2250 := by
  refine ⟨fun _ _ _ _ => rfl, fun _ _ _ => rfl, fun _ _ _ => ?_, ?_⟩
  · show ((Int.ceil ((1 : Rat) * 1000) : Int) : Rat) = 1000
    norm_num
  · show (500 : Rat) * 2 ^ 2 + ((Int.floor ((1 / 2 : Rat) * 500) : Int) : Rat) = 2250
    norm_num

/-- C8 counterexample: a 204 response when a body was expected
(`expectNoContent` unset) is not wrapped into the typed error; the request
resolves successfully with a `null` parsed body, because a 204 is a 2xx
response (`response.ok`) and its body is skipped, not parsed. -/
theorem claim_C8_counterexample :
    (requestJsonModel 0 false "https://api.are.na/v3/x"
        (fun _ => .response 204 none (.str "ignored"))).2 = .ok (some .null) ∧
    ¬ ∃ e, (requestJsonModel 0 false "https://api.are.na/v3/x"
        (fun _ => .response 204 none (.str "ignored"))).2 = .error e := by
  refine ⟨rfl, ?_⟩
  rintro ⟨e, h⟩
  rw [show (requestJsonModel 0 false "https://api.are.na/v3/x"
      (fun _ => .response 204 none (.str "ignored"))).2 =
      Except.ok (some JsValue.null) from rfl] at h
  exact Except.noConfusion h

/-- C8 (amended): a 204 response with `expectNoContent` set resolves without
error, after a single HTTP call, to the explicit no-value sentinel (neither
an empty object nor a parsed body); a 204 response when a body was expected
also resolves without error, with a `null` parsed body, rather than being
wrapped into the typed error. -/
theorem claim_C8_no_content :
    ∀ (maxRetries : Nat) (url : String) (outcomes : Nat → HttpOutcome)
      (ra : Option Rat) (body : JsValue),
      outcomes 0 = .response 204 ra body →
      requestJsonModel maxRetries true url outcomes = (1, .ok none) ∧
      requestJsonModel maxRetries false url outcomes = (1, .ok (some .null)) := by
  intro maxRetries url outcomes ra body h
  constructor <;> simp [requestJsonModel, requestLoop, h, httpOk]

/-- C8 witness: concrete 204 responses under both `expectNoContent` modes. -/
theorem claim_C8_no_content_witness :
    requestJsonModel 3 true "u" (fun _ => .response 204 none (.str "b")) = (1, .ok none) ∧
    requestJsonModel 3 false "u" (fun _ => .response 204 none (.str "b")) =
      (1, .ok (some .null)) :=
  claim_C8_no_content 3 "u" (fun _ => .response 204 none (.str "b")) none (.str "b") rfl

/-- C6 counterexample: `normalizeBlockFromV3` applied to the empty record
produces a block with zero populated type-specific payloads, refuting that
every normalized block has exactly one populated payload. -/
theorem claim_C6_counterexample :
    countPopulatedPayloads (normalizeBlockFromV3 (.obj [])) = 0 ∧
    countPopulatedPayloads (normalizeBlockFromV3 (.obj [])) ≠ 1 :=
  ⟨rfl, by rw [show countPopulatedPayloads (normalizeBlockFromV3 (.obj [])) = 0 from rfl]
           exact Nat.zero_ne_one⟩

/-- C6 (amended): `normalizeBlockFromV3` coerces an unrecognized upstream
`type` value (anything outside Text, Image, Link, Attachment, Embed,
PendingBlock) to PendingBlock, and each of the four type-specific payloads
(`content`, `image`, `attachment`, `embed`) is populated independently of the
declared type: whenever upstream omits the corresponding field the payload is
null, regardless of the declared `type`, so a block may have zero or several
populated payloads rather than always exactly one. -/
theorem claim_C6_block_payloads :
    (∀ v : JsValue, (normalizeBlockFromV3 v).type ∈ blockTypeNames) ∧
    (∀ (v : JsValue) (t : String), asString (v.getField "type") = some t →
      t ∉ blockTypeNames → (normalizeBlockFromV3 v).type = "PendingBlock") ∧
    (∀ v : JsValue, v.getField "content" = .null →
      (normalizeBlockFromV3 v).content = none) ∧
    (∀ v : JsValue, v.getField "image" = .null →
      (normalizeBlockFromV3 v).image = none) ∧
    (∀ v : JsValue, v.getField "attachment" = .null →
      (normalizeBlockFromV3 v).attachment = none) ∧
    (∀ v : JsValue, v.getField "embed" = .null →
      (normalizeBlockFromV3 v).embed = none) := by
  refine ⟨?_, ?_, ?_, ?_, ?_, ?_⟩
  · intro v
    show (if blockTypeNames.contains ((asString (v.getField "type")).getD "PendingBlock")
        then ((asString (v.getField "type")).getD "PendingBlock")
        else "PendingBlock") ∈ blockTypeNames
    split
    · next h => exact List.elem_iff.mp h
    · simp [blockTypeNames]
  · intro v t ht hmem
    show (if blockTypeNames.contains ((asString (v.getField "type")).getD "PendingBlock")
        then ((asString (v.getField "type")).getD "PendingBlock")
        else "PendingBlock") = "PendingBlock"
    rw [ht, Option.getD_some, if_neg]
    intro hc
    exact hmem (List.elem_iff.mp hc)
  · intro v h
    show normalizeMarkdown (v.getField "content") = none
    rw [h]
    rfl
  · intro v h
    show normalizeImage (v.getField "image") = none
    rw [h]
    rfl
  · intro v h
    show normalizeAttachment (v.getField "attachment") = none
    rw [h]
    rfl
  · intro v h
    show normalizeEmbed (v.getField "embed") = none
    rw [h]
    rfl

/-- C6 witness: a block with an unrecognized declared type and no payload
fields has type PendingBlock and a null image payload. -/
theorem claim_C6_block_payloads_witness :
    (normalizeBlockFromV3 (.obj [("type", .str "Weird")])).type = "PendingBlock" ∧
    (normalizeBlockFromV3 (.obj [("type", .str "Weird")])).image = none :=
  ⟨claim_C6_block_payloads.2.1 (.obj [("type", .str "Weird")]) "Weird" rfl (by decide),
   claim_C6_block_payloads.2.2.2.1 (.obj [("type", .str "Weird")]) rfl⟩

/-- C1: a successful primary (v3) search returns the v3-normalized result
tagged `sourceApi = "v3"`; a primary failure that is a typed `ArenaApiError`
with status exactly 403 while the v2 fallback is enabled issues the legacy
search and returns its normalized result tagged `sourceApi = "v2-fallback"`;
every other failure — including a 403 with the fallback disabled and any
non-403 error — propagates to the caller unchanged. -/
theorem claim_C1_search_fallback :
    (∀ (enabled : Bool) (v2Outcome : Except ClientError JsValue) (payload : JsValue),
      ArenaClient.search enabled (.ok payload) v2Outcome =
        .ok (normalizeSearchResponseV3 payload) ∧
      (normalizeSearchResponseV3 payload).sourceApi = "v3") ∧
    (∀ (v2payload : JsValue) (ae : ArenaApiError), ae.status = 403 →
      ArenaClient.search true (.error (.api ae)) (.ok v2payload) =
        .ok (normalizeSearchResponseV2 v2payload) ∧
      (normalizeSearchResponseV2 v2payload).sourceApi = "v2-fallback") ∧
    (∀ (enabled : Bool) (e : ClientError) (v2Outcome : Except ClientError JsValue),
      (∀ ae, e = .api ae → ae.status ≠ 403 ∨ enabled = false) →
      ArenaClient.search enabled (.error e) v2Outcome = .error e) := by
  refine ⟨fun _ _ _ => ⟨rfl, rfl⟩, ?_, ?_⟩
  · intro v2payload ae h
    refine ⟨?_, rfl⟩
    simp [ArenaClient.search, h]
  · intro enabled e v2Outcome h
    cases e with
    | api ae =>
      rcases h ae rfl with h403 | hdis
      · simp [ArenaClient.search, h403]
      · subst hdis
        simp [ArenaClient.search]
    | other m => rfl

/-- C1 witness: a concrete 403 with the fallback enabled falls back to the
normalized legacy payload; the same 403 with the fallback disabled
propagates unchanged. -/
theorem claim_C1_search_fallback_witness :
    ArenaClient.search true (.error (.api ⟨"m", 403, .null, none, "u"⟩)) (.ok (.obj [])) =
      .ok (normalizeSearchResponseV2 (.obj [])) ∧
    ArenaClient.search false (.error (.api ⟨"m", 403, .null, none, "u"⟩)) (.ok (.obj [])) =
      .error (.api ⟨"m", 403, .null, none, "u"⟩) :=
  ⟨(claim_C1_search_fallback.2.1 (.obj []) ⟨"m", 403, .null, none, "u"⟩ rfl).1,
   claim_C1_search_fallback.2.2 false (.api ⟨"m", 403, .null, none, "u"⟩) (.ok (.obj []))
     (fun _ _ => Or.inr rfl)⟩

/-- Helper: a three-way `??` chain evaluates to one of its non-`none` links,
provided at least one link is non-`none`. -/
theorem chain_getD_supplied (a b c : Option String)
    (hne : a ≠ none ∨ b ≠ none ∨ c ≠ none) :
    a = some (((a.orElse fun _ => b).orElse fun _ => c).getD "") ∨
    b = some (((a.orElse fun _ => b).orElse fun _ => c).getD "") ∨
    c = some (((a.orElse fun _ => b).orElse fun _ => c).getD "") := by
  rcases a with _ | x
  · rcases b with _ | y
    · rcases c with _ | z
      · rcases hne with h | h | h <;> exact absurd rfl h
      · right; right; simp [Option.orElse]
    · right; left; simp [Option.orElse]
  · left; simp [Option.orElse]

/-- Helper: the record branch of `normalizeMarkdown` back-fills every output
field from one of the three supplied fields. -/
theorem backfill_fields (M H P : Option String) (m : NormalizedMarkdown)
    (h : (if jsStrFalsy M && jsStrFalsy H && jsStrFalsy P then
        (none : Option NormalizedMarkdown)
      else some
        { markdown := ((M.orElse fun _ => P).orElse fun _ => H).getD ""
          html := ((H.orElse fun _ => M).orElse fun _ => P).getD ""
          plain := ((P.orElse fun _ => M).orElse fun _ => H).getD "" }) = some m) :
    (M = some m.markdown ∨ H = some m.markdown ∨ P = some m.markdown) ∧
    (M = some m.html ∨ H = some m.html ∨ P = some m.html) ∧
    (M = some m.plain ∨ H = some m.plain ∨ P = some m.plain) := by
  split at h
  · exact absurd h (by simp)
  · next hcond =>
    have hm := Option.some.inj h
    subst hm
    have hne : M ≠ none ∨ H ≠ none ∨ P ≠ none := by
      by_contra hall
      push_neg at hall
      obtain ⟨h1, h2, h3⟩ := hall
      subst h1; subst h2; subst h3
      exact hcond rfl
    refine ⟨?_, ?_, ?_⟩
    · rcases chain_getD_supplied M P H (by tauto) with h' | h' | h'
      exacts [Or.inl h', Or.inr (Or.inr h'), Or.inr (Or.inl h')]
    · rcases chain_getD_supplied H M P (by tauto) with h' | h' | h'
      exacts [Or.inr (Or.inl h'), Or.inl h', Or.inr (Or.inr h')]
    · rcases chain_getD_supplied P M H (by tauto) with h' | h' | h'
      exacts [Or.inr (Or.inr h'), Or.inl h', Or.inr (Or.inl h')]

/-- Helper: `backfill_fields` instantiated at the record branch of
`normalizeMarkdown`. -/
theorem backfill_record (v : JsValue) (m : NormalizedMarkdown)
    (h : normalizeMarkdownRecord v = some m) :
    (asString (v.getField "markdown") = some m.markdown ∨
      asString (v.getField "html") = some m.markdown ∨
      asString (v.getField "plain") = some m.markdown) ∧
    (asString (v.getField "markdown") = some m.html ∨
      asString (v.getField "html") = some m.html ∨
      asString (v.getField "plain") = some m.html) ∧
    (asString (v.getField "markdown") = some m.plain ∨
      asString (v.getField "html") = some m.plain ∨
      asString (v.getField "plain") = some m.plain) := by
  rw [normalizeMarkdownRecord] at h
  exact backfill_fields _ _ _ m h

/-- Helper: turn a field-level disjunction into `suppliedRepresentation`. -/
theorem supplied_of_disj (v : JsValue) (x : String)
    (h : asString (v.getField "markdown") = some x ∨
      asString (v.getField "html") = some x ∨
      asString (v.getField "plain") = some x) :
    suppliedRepresentation v x := by
  rcases h with h | h | h
  exacts [Or.inr (Or.inl h), Or.inr (Or.inr (Or.inl h)), Or.inr (Or.inr (Or.inr h))]

/-- C7: `normalizeMarkdown` maps a bare string to all three representations;
an object lacking all three of `markdown`/`html`/`plain` (in particular the
empty object) maps to `null`; and whenever the result is non-null, all three
output fields are strings back-filled from the representations actually
supplied. -/
theorem claim_C7_markdown :
    (∀ s : String, normalizeMarkdown (.str s) = some ⟨s, s, s⟩) ∧
    normalizeMarkdown (.obj []) = none ∧
    (∀ fields : List (String × JsValue),
      asString ((JsValue.obj fields).getField "markdown") = none →
      asString ((JsValue.obj fields).getField "html") = none →
      asString ((JsValue.obj fields).getField "plain") = none →
      normalizeMarkdown (.obj fields) = none) ∧
    (∀ (v : JsValue) (m : NormalizedMarkdown), normalizeMarkdown v = some m →
      suppliedRepresentation v m.markdown ∧ suppliedRepresentation v m.html ∧
        suppliedRepresentation v m.plain) := by
  refine ⟨fun _ => rfl, rfl, ?_, ?_⟩
  · intro fields h1 h2 h3
    show (if jsStrFalsy (asString ((JsValue.obj fields).getField "markdown")) &&
        jsStrFalsy (asString ((JsValue.obj fields).getField "html")) &&
        jsStrFalsy (asString ((JsValue.obj fields).getField "plain")) then none
      else _) = none
    rw [h1, h2, h3]
    rfl
  · intro v m h
    cases v with
    | null => simp [normalizeMarkdown] at h
    | str s =>
      have hm := Option.some.inj h
      subst hm
      exact ⟨Or.inl rfl, Or.inl rfl, Or.inl rfl⟩
    | bool b =>
      replace h : normalizeMarkdownRecord (JsValue.bool b) = some m := h
      obtain ⟨h1, h2, h3⟩ := backfill_record _ m h
      exact ⟨supplied_of_disj _ _ h1, supplied_of_disj _ _ h2, supplied_of_disj _ _ h3⟩
    | num q =>
      replace h : normalizeMarkdownRecord (JsValue.num q) = some m := h
      obtain ⟨h1, h2, h3⟩ := backfill_record _ m h
      exact ⟨supplied_of_disj _ _ h1, supplied_of_disj _ _ h2, supplied_of_disj _ _ h3⟩
    | arr items =>
      replace h : normalizeMarkdownRecord (JsValue.arr items) = some m := h
      obtain ⟨h1, h2, h3⟩ := backfill_record _ m h
      exact ⟨supplied_of_disj _ _ h1, supplied_of_disj _ _ h2, supplied_of_disj _ _ h3⟩
    | obj fields =>
      replace h : normalizeMarkdownRecord (JsValue.obj fields) = some m := h
      obtain ⟨h1, h2, h3⟩ := backfill_record _ m h
      exact ⟨supplied_of_disj _ _ h1, supplied_of_disj _ _ h2, supplied_of_disj _ _ h3⟩

/-- C7 witness: concrete instances — an object lacking all three fields
normalizes to null, and an html-only object back-fills all fields from the
supplied html string. -/
theorem claim_C7_markdown_witness :
    normalizeMarkdown (.obj [("x", .num 1)]) = none ∧
    suppliedRepresentation (.obj [("html", .str "h")]) "h" :=
  ⟨claim_C7_markdown.2.2.1 [("x", .num 1)] rfl rfl rfl,
   (claim_C7_markdown.2.2.2 (.obj [("html", .str "h")]) ⟨"h", "h", "h"⟩ rfl).1⟩

/-- Helper: `URLSearchParams.set` on a key not yet present appends. -/
theorem setParam_of_not_mem (acc : List (String × String)) (k v : String)
    (h : ∀ p ∈ acc, p.1 ≠ k) : setParam acc k v = acc ++ [(k, v)] := by
  rw [setParam, if_neg]
  simp only [List.any_eq_true, decide_eq_true_eq, not_exists, not_and]
  exact h

/-- Helper: a query entry mapped to `none` by `queryEntryPair` is skipped by
the serialization step. -/
theorem step_skip (acc : List (String × String)) (k : String) (v : QueryValue)
    (h : queryEntryPair (k, v) = none) : serializeQueryStep acc (k, v) = acc := by
  rcases v with s | items
  · rcases s <;> simp_all [queryEntryPair, serializeQueryStep]
  · rcases items <;> simp_all [queryEntryPair, serializeQueryStep]

/-- Helper: a query entry mapped to a pair by `queryEntryPair` appends that
pair when its key is not yet in the accumulator. -/
theorem step_set (acc : List (String × String)) (k : String) (v : QueryValue)
    (pr : String × String) (h : queryEntryPair (k, v) = some pr)
    (hnm : ∀ p ∈ acc, p.1 ≠ k) : serializeQueryStep acc (k, v) = acc ++ [pr] := by
  rcases v with s | items
  · rcases s <;>
      simp_all [queryEntryPair, serializeQueryStep, setParam_of_not_mem acc k _ hnm]
  · rcases items <;>
      simp_all [queryEntryPair, serializeQueryStep, setParam_of_not_mem acc k _ hnm]

/-- Helper: `queryEntryPair` keeps the entry's own key. -/
theorem queryEntryPair_fst (kv : String × QueryValue) (pr : String × String)
    (h : queryEntryPair kv = some pr) : pr.1 = kv.1 := by
  obtain ⟨k, v⟩ := kv
  rcases v with s | items
  · rcases s with _ | _ | s' | n | b
    · exact absurd h (by simp [queryEntryPair])
    · exact absurd h (by simp [queryEntryPair])
    · exact Option.some.inj h ▸ rfl
    · exact Option.some.inj h ▸ rfl
    · exact Option.some.inj h ▸ rfl
  · rcases items with _ | ⟨i, irest⟩
    · exact absurd h (by simp [queryEntryPair])
    · exact Option.some.inj h ▸ rfl

/-- Helper: over pairwise-distinct keys, the serialization fold is the
entry-wise `filterMap`. -/
theorem serialized_go (query : List (String × QueryValue)) :
    ∀ acc : List (String × String),
      (∀ k, k ∈ query.map Prod.fst → ∀ p ∈ acc, p.1 ≠ k) →
      (query.map Prod.fst).Nodup →
      query.foldl serializeQueryStep acc = acc ++ query.filterMap queryEntryPair := by
  induction query with
  | nil => intro acc _ _; simp
  | cons kv rest ih =>
    intro acc hacc hnodup
    obtain ⟨k, v⟩ := kv
    rw [List.foldl_cons]
    rcases hkv : queryEntryPair (k, v) with _ | pr
    · rw [step_skip acc k v hkv, List.filterMap_cons_none hkv]
      exact ih acc (fun k' hk' => hacc k' (List.mem_cons_of_mem _ hk'))
        (List.Nodup.of_cons hnodup)
    · obtain ⟨p1, p2⟩ := pr
      obtain rfl : p1 = k := queryEntryPair_fst (k, v) (p1, p2) hkv
      rw [step_set acc p1 v (p1, p2) hkv (hacc p1 (List.mem_cons_self _ _)),
        List.filterMap_cons_some hkv]
      have hknotin : p1 ∉ rest.map Prod.fst := by
        have h' := hnodup
        rw [List.map_cons, List.nodup_cons] at h'
        exact h'.1
      have hkeys : ∀ k' ∈ rest.map Prod.fst, ∀ p ∈ acc ++ [(p1, p2)], p.1 ≠ k' := by
        intro k' hk' p hp
        rcases List.mem_append.mp hp with hp | hp
        · exact hacc k' (List.mem_cons_of_mem _ hk') p hp
        · rw [List.mem_singleton.mp hp]
          intro hcontra
          cases hcontra
          exact hknotin hk'
      rw [ih (acc ++ [(p1, p2)]) hkeys (List.Nodup.of_cons hnodup)]
      simp

/-- Helper: with pairwise-distinct keys, `serializedQueryPairs` is the
entry-wise `filterMap`. -/
theorem serializedQueryPairs_eq (query : List (String × QueryValue))
    (h : (query.map Prod.fst).Nodup) :
    serializedQueryPairs query = query.filterMap queryEntryPair := by
  have := serialized_go query [] (by simp) h
  simpa [serializedQueryPairs] using this

/-- Helper: with pairwise-distinct keys, a key determines its value. -/
theorem key_unique {α : Type} (l : List (String × α)) (h : (l.map Prod.fst).Nodup)
    (k : String) (a b : α) (ha : (k, a) ∈ l) (hb : (k, b) ∈ l) : a = b := by
  induction l with
  | nil => cases ha
  | cons x rest ih =>
    rw [List.map_cons, List.nodup_cons] at h
    rcases List.mem_cons.mp ha with rfl | ha'
    · rcases List.mem_cons.mp hb with hb0 | hb'
      · exact (Prod.mk.injEq _ _ _ _ |>.mp hb0.symm).2.symm ▸ rfl
      · exact absurd (List.mem_map_of_mem Prod.fst hb') (by simpa using h.1)
    · rcases List.mem_cons.mp hb with rfl | hb'
      · exact absurd (List.mem_map_of_mem Prod.fst ha') (by simpa using h.1)
      · exact ih h.2 ha' hb'

/-- C10: in the query serialization of the request engine, a key whose value
is an empty array is omitted from the serialized query entirely, as are keys
with `undefined`/`null` values; a key with a non-empty array value is sent
once, with its elements joined by commas. -/
theorem claim_C10_query_serialization :
    ∀ query : List (String × QueryValue), (query.map Prod.fst).Nodup →
      (∀ k, ((k, QueryValue.arr []) ∈ query ∨ (k, QueryValue.scalar .undef) ∈ query ∨
          (k, QueryValue.scalar .null) ∈ query) →
        k ∉ (serializedQueryPairs query).map Prod.fst) ∧
      (∀ k items, (k, QueryValue.arr items) ∈ query → items ≠ [] →
        (k, jsJoin "," (items.map joinElemString)) ∈ serializedQueryPairs query) := by
  intro query hnodup
  rw [serializedQueryPairs_eq query hnodup]
  constructor
  · intro k hk hmem
    rw [List.mem_map] at hmem
    obtain ⟨pr, hpr, hfst⟩ := hmem
    rw [List.mem_filterMap] at hpr
    obtain ⟨⟨k0, v0⟩, hkv, hentry⟩ := hpr
    have hk0 : k0 = k := by
      have := queryEntryPair_fst (k0, v0) pr hentry
      rw [← hfst, this]
    subst hk0
    rcases hk with hk | hk | hk
    all_goals {
      have hv0 := key_unique query hnodup k0 v0 _ hkv hk
      subst hv0
      simp [queryEntryPair] at hentry
    }
  · intro k items hmem hne
    rw [List.mem_filterMap]
    refine ⟨(k, QueryValue.arr items), hmem, ?_⟩
    cases items with
    | nil => exact absurd rfl hne
    | cons i irest => rfl

/-- C10 witness: a concrete query with an empty array, a joined non-empty
array, and an `undefined` value. -/
theorem claim_C10_query_serialization_witness :
    ("a" ∉ (serializedQueryPairs
        [("a", QueryValue.arr []), ("b", QueryValue.arr [.str "x", .str "y"]),
          ("c", QueryValue.scalar .undef)]).map Prod.fst) ∧
    ("b", "x,y") ∈ serializedQueryPairs
        [("a", QueryValue.arr []), ("b", QueryValue.arr [.str "x", .str "y"]),
          ("c", QueryValue.scalar .undef)] :=
  ⟨(claim_C10_query_serialization _ (by decide)).1 "a" (Or.inl (by decide)),
   (claim_C10_query_serialization _ (by decide)).2 "b" [.str "x", .str "y"]
     (by decide) (by decide)⟩

/-- Helper: over any valid trace, the limiter keeps `active` at or below the
cap and releases queued callers in exactly the order they were queued
(released so far ++ still queued = queued so far). -/
theorem limiterRun_inv (max : Nat) :
    ∀ (trace : List LimiterEvent) (s : LimiterState),
      s.active ≤ max → limiterValid max s trace = true →
      (limiterRun max s trace).1.active ≤ max ∧
      (limiterRun max s trace).2.1 ++ (limiterRun max s trace).1.queue =
        s.queue ++ (limiterRun max s trace).2.2 := by
  intro trace
  induction trace with
  | nil => intro s hs _; simpa [limiterRun]
  | cons e rest ih =>
    intro s hs hv
    rw [limiterValid.eq_def] at hv
    rcases Bool.and_eq_true .. |>.mp hv with ⟨hv1, hv2⟩
    cases e with
    | acquire id =>
      by_cases hlt : s.active < max
      · have step1 : (limiterStep max s (.acquire id)).1 = ⟨s.active + 1, s.queue⟩ := by
          simp [limiterStep, hlt]
        rw [step1] at hv2
        have h := ih ⟨s.active + 1, s.queue⟩ (by show s.active + 1 ≤ max; omega) hv2
        simpa [limiterRun, limiterStep, hlt] using h
      · have step1 : (limiterStep max s (.acquire id)).1 = ⟨s.active, s.queue ++ [id]⟩ := by
          simp [limiterStep, hlt]
        rw [step1] at hv2
        have h := ih ⟨s.active, s.queue ++ [id]⟩ hs hv2
        have h2 := h.2
        simp only [List.append_assoc] at h2
        refine ⟨by simpa [limiterRun, limiterStep, hlt] using h.1, ?_⟩
        simpa [limiterRun, limiterStep, hlt] using h2
    | release =>
      have hpos : 0 < s.active := by simpa using hv1
      cases hq : s.queue with
      | nil =>
        have step1 : (limiterStep max s .release).1 = ⟨s.active - 1, []⟩ := by
          simp [limiterStep, hq]
        rw [step1] at hv2
        have h := ih ⟨s.active - 1, []⟩ (by show s.active - 1 ≤ max; omega) hv2
        refine ⟨by simpa [limiterRun, limiterStep, hq] using h.1, ?_⟩
        simpa [limiterRun, limiterStep, hq] using h.2
      | cons x xs =>
        have step1 : (limiterStep max s .release).1 = ⟨s.active - 1 + 1, xs⟩ := by
          simp [limiterStep, hq]
        rw [step1] at hv2
        have h := ih ⟨s.active - 1 + 1, xs⟩ (by show s.active - 1 + 1 ≤ max; omega) hv2
        refine ⟨by simpa [limiterRun, limiterStep, hq] using h.1, ?_⟩
        have h2 := h.2
        have goal2 := congrArg (List.cons x) h2
        simpa [limiterRun, limiterStep, hq] using goal2

/-- C9: over every valid sequence of acquire/release events starting from an
idle limiter, the number of in-flight calls never exceeds the configured
maximum (any initial segment of a valid trace is itself a valid trace, so the
bound holds at every intermediate state), callers queued beyond the limit are
released in FIFO submission order (the released callers followed by the
still-queued callers are exactly the queued callers in order), and each
release event frees exactly one queued caller — the head of the queue — or
none when the queue is empty. -/
theorem claim_C9_limiter :
    (∀ (max : Nat) (trace : List LimiterEvent),
      limiterValid max limiterInit trace = true →
      (limiterRun max limiterInit trace).1.active ≤ max ∧
      (limiterRun max limiterInit trace).2.1 ++ (limiterRun max limiterInit trace).1.queue =
        (limiterRun max limiterInit trace).2.2) ∧
    (∀ (max : Nat) (s : LimiterState),
      ((limiterStep max s .release).2).toList = s.queue.take 1) := by
  constructor
  · intro max trace hv
    have h := limiterRun_inv max trace limiterInit (Nat.zero_le _) hv
    exact ⟨h.1, by simpa [limiterInit] using h.2⟩
  · intro max s
    cases hq : s.queue <;> simp [limiterStep, hq]

/-- C9 witness: a cap-1 limiter with three acquisitions and three releases
starts one call, queues the other two, and releases them in FIFO order. -/
theorem claim_C9_limiter_witness :
    ((limiterRun 1 limiterInit
        [.acquire 0, .acquire 1, .acquire 2, .release, .release, .release]).1.active ≤ 1 ∧
      (limiterRun 1 limiterInit
          [.acquire 0, .acquire 1, .acquire 2, .release, .release, .release]).2.1 ++
        (limiterRun 1 limiterInit
          [.acquire 0, .acquire 1, .acquire 2, .release, .release, .release]).1.queue =
        (limiterRun 1 limiterInit
          [.acquire 0, .acquire 1, .acquire 2, .release, .release, .release]).2.2) ∧
    ((limiterStep 1 ⟨1, [4, 5]⟩ .release).2).toList = [4] :=
  ⟨claim_C9_limiter.1 1 [.acquire 0, .acquire 1, .acquire 2, .release, .release, .release]
      (by decide),
   claim_C9_limiter.2 1 ⟨1, [4, 5]⟩⟩

/-- Helper: a retryable status (429 or 500+) is never a 2xx success. -/
theorem retryable_not_ok (s : Nat) (h : isRetryableStatus s = true) :
    httpOk s = false := by
  rw [isRetryableStatus, Bool.or_eq_true, beq_iff_eq, decide_eq_true_iff] at h
  have : ¬ (s < 300) := by omega
  simp [httpOk, this]

/-- Helper: a retryable status is never 204. -/
theorem retryable_ne_204 (s : Nat) (h : isRetryableStatus s = true) :
    (s == 204) = false := by
  rw [isRetryableStatus, Bool.or_eq_true, beq_iff_eq, decide_eq_true_iff] at h
  simp only [beq_eq_false_iff_ne, ne_eq]
  omega

/-- Helper: a run of `k` consecutive retryable-status responses makes the
loop issue `k` calls and continue at attempt `attempt + k`, as long as the
retry budget is not exhausted. -/
theorem requestLoop_run (maxRetries : Nat) (e : Bool) (url : String)
    (outcomes : Nat → HttpOutcome) :
    ∀ (k attempt : Nat), attempt + k ≤ maxRetries →
      (∀ i, attempt ≤ i → i < attempt + k → retryFailureAt outcomes i) →
      requestLoop maxRetries e url outcomes (maxRetries + 1 - attempt) attempt =
        ((requestLoop maxRetries e url outcomes (maxRetries + 1 - (attempt + k))
            (attempt + k)).1 + k,
         (requestLoop maxRetries e url outcomes (maxRetries + 1 - (attempt + k))
            (attempt + k)).2) := by
  intro k
  induction k with
  | zero => intro attempt _ _; simp
  | succ k ih =>
    intro attempt hle hfail
    obtain ⟨s, ra, b, hout, hretry⟩ := hfail attempt (le_refl _) (by omega)
    have hlt : attempt < maxRetries := by omega
    have hfuel : maxRetries + 1 - attempt = (maxRetries - attempt) + 1 := by omega
    rw [hfuel]
    simp only [requestLoop, hout]
    rw [if_neg (by simp [retryable_ne_204 s hretry]),
      if_pos (by simp [retryable_not_ok s hretry]),
      if_pos (by simp [hretry, hlt])]
    have hfuel2 : maxRetries - attempt = maxRetries + 1 - (attempt + 1) := by omega
    rw [hfuel2]
    have hrec := ih (attempt + 1) (by omega)
      (fun i h1 h2 => hfail i (by omega) (by omega))
    rw [hrec]
    have hidx : attempt + 1 + k = attempt + (k + 1) := by omega
    rw [hidx]
    simp [Nat.add_assoc, Nat.add_comm 1 k]

/-- Helper: a 2xx response returns the parsed body after one call when a body
is expected. -/
theorem requestLoop_success (maxRetries : Nat) (url : String)
    (outcomes : Nat → HttpOutcome) (attempt fuel : Nat) (s : Nat) (ra : Option Rat)
    (b : JsValue) (hout : outcomes attempt = .response s ra b)
    (hok : httpOk s = true) :
    requestLoop maxRetries false url outcomes (fuel + 1) attempt =
      (1, .ok (some (if s == 204 then JsValue.null else b))) := by
  simp only [requestLoop, hout]
  rw [if_neg (by simp), if_neg (by simp [hok])]

/-- Helper: a retryable failure on the last budgeted attempt throws the typed
error of that attempt after one more call. -/
theorem requestLoop_exhaust (maxRetries : Nat) (e : Bool) (url : String)
    (outcomes : Nat → HttpOutcome) (s : Nat) (ra : Option Rat) (b : JsValue)
    (hout : outcomes maxRetries = .response s ra b)
    (hretry : isRetryableStatus s = true) :
    requestLoop maxRetries e url outcomes 1 maxRetries =
      (1, .error (.api ⟨failMessage s, s, b, ra, url⟩)) := by
  rw [show (1 : Nat) = 0 + 1 from rfl]
  simp only [requestLoop, hout]
  rw [if_neg (by simp [retryable_ne_204 s hretry]),
    if_pos (by simp [retryable_not_ok s hretry]),
    if_neg (by simp)]
  simp [retryable_ne_204 s hretry]

/-- C5: an HTTP status is retryable exactly when it is 429 or at least 500,
and for a run of `failures` consecutive retryable-status responses the
engine issues exactly `min failures maxRetries + 1` HTTP calls before either
returning the first success (when the budget suffices) or throwing the typed
error built from the response of the last attempt (when the budget is
exhausted). -/
theorem claim_C5_retry_budget :
    (∀ s : Nat, isRetryableStatus s = true ↔ (s = 429 ∨ 500 ≤ s)) ∧
    (∀ (maxRetries failures : Nat) (url : String) (outcomes : Nat → HttpOutcome),
      (∀ i, i < failures → retryFailureAt outcomes i) →
      (failures ≤ maxRetries →
        ∀ s ra b, outcomes failures = .response s ra b → httpOk s = true →
          requestJsonModel maxRetries false url outcomes =
            (min failures maxRetries + 1,
             .ok (some (if s == 204 then JsValue.null else b)))) ∧
      (maxRetries < failures →
        ∀ s ra b, outcomes maxRetries = .response s ra b →
          requestJsonModel maxRetries false url outcomes =
            (min failures maxRetries + 1,
             .error (.api ⟨failMessage s, s, b, ra, url⟩)))) := by
  constructor
  · intro s
    rw [isRetryableStatus, Bool.or_eq_true, beq_iff_eq, decide_eq_true_iff]
  · intro maxRetries failures url outcomes hfail
    constructor
    · intro hle s ra b hout hok
      have hrun := requestLoop_run maxRetries false url outcomes failures 0
        (by omega) (fun i _ h2 => hfail i (by omega))
      simp only [Nat.sub_zero, Nat.zero_add] at hrun
      rw [requestJsonModel, hrun]
      have hfuel : maxRetries + 1 - failures = (maxRetries - failures) + 1 := by omega
      rw [hfuel, requestLoop_success maxRetries url outcomes failures
        (maxRetries - failures) s ra b hout hok]
      rw [Nat.min_eq_left hle, Nat.add_comm]
    · intro hgt s ra b hout
      have hrun := requestLoop_run maxRetries false url outcomes maxRetries 0
        (by omega) (fun i _ h2 => hfail i (by omega))
      simp only [Nat.sub_zero, Nat.zero_add] at hrun
      rw [requestJsonModel, hrun]
      have hfuel : maxRetries + 1 - maxRetries = 1 := by omega
      obtain ⟨s', ra', b', hout', hretry'⟩ := hfail maxRetries hgt
      rw [hout] at hout'
      obtain ⟨hs, hra, hb⟩ := HttpOutcome.response.inj hout'
      subst hs; subst hra; subst hb
      rw [hfuel, requestLoop_exhaust maxRetries false url outcomes s ra b hout hretry']
      rw [Nat.min_eq_right (Nat.le_of_lt hgt), Nat.add_comm]

/-- C5 witness: with budget 2, one 429 failure then a 200 success takes two
calls; with budget 1, three 500 failures available takes two calls and
throws the typed error of the second attempt. -/
theorem claim_C5_retry_budget_witness :
    requestJsonModel 2 false "u"
        (fun i => if i = 0 then .response 429 none .null
          else .response 200 none (.str "ok")) =
      (2, .ok (some (.str "ok"))) ∧
    requestJsonModel 1 false "u" (fun _ => .response 500 none (.str "boom")) =
      (2, .error (.api ⟨failMessage 500, 500, .str "boom", none, "u"⟩)) := by
  constructor
  · have h := ((claim_C5_retry_budget.2 2 1 "u"
      (fun i => if i = 0 then .response 429 none .null
        else .response 200 none (.str "ok")))
      (by intro i hi
          interval_cases i
          exact ⟨429, none, .null, rfl, rfl⟩)).1
      (by omega) 200 none (.str "ok") rfl rfl
    simpa using h
  · have h := ((claim_C5_retry_budget.2 1 3 "u"
      (fun _ => .response 500 none (.str "boom")))
      (fun i _ => ⟨500, none, .str "boom", rfl, rfl⟩)).2
      (by omega) 500 none (.str "boom") rfl
    simpa using h

/-- Helper: a passed owner check with a non-empty expectation means the
channel has an owner whose lowercased slug is the expectation. -/
theorem assert_ok_owner (ch : NormalizedChannel) (owner raw : String)
    (h : assertChannelOwnerMatch ch (some owner) raw = .ok ()) (hne : owner ≠ "") :
    ∃ u, ch.owner = some u ∧ jsToLower u.slug = owner := by
  rw [assertChannelOwnerMatch] at h
  rw [if_neg (by simp [jsStrFalsy, hne])] at h
  cases hown : ch.owner with
  | none => rw [hown] at h; simp [jsStrFalsy] at h
  | some u =>
    rw [hown] at h
    by_cases hsl : jsToLower u.slug = ""
    · rw [if_pos (by simp [jsStrFalsy, hsl])] at h
      exact absurd h (by simp)
    · rw [if_neg (by simp [jsStrFalsy, hsl])] at h
      by_cases heq : jsToLower u.slug = owner
      · exact ⟨u, by simp [hown], heq⟩
      · rw [if_pos (by simpa using heq)] at h
        exact absurd h (by simp)

/-- Helper: a matching non-empty owner expectation passes the owner check. -/
theorem assert_ok_of_match (ch : NormalizedChannel) (owner raw : String)
    (u : NormalizedEmbeddedUser) (hown : ch.owner = some u)
    (hslug : jsToLower u.slug = owner) (hne : owner ≠ "") :
    assertChannelOwnerMatch ch (some owner) raw = .ok () := by
  rw [assertChannelOwnerMatch, if_neg (by simp [jsStrFalsy, hne])]
  rw [if_neg (by simp [hown, jsStrFalsy, hslug, hne])]
  rw [if_neg (by simp [hown, hslug])]

/-- Helper: the owner check only ever throws the two owner errors. -/
theorem assert_error_cases (ch : NormalizedChannel) (eo : Option String)
    (raw : String) (e : ResolveError)
    (h : assertChannelOwnerMatch ch eo raw = .error e) :
    (∃ m, e = .ownerVerificationFailed m) ∨ ∃ m, e = .ownerMismatch m := by
  rw [assertChannelOwnerMatch] at h
  split at h
  · exact absurd h (by simp)
  · dsimp only at h
    split at h
    · exact Or.inl ⟨_, (Except.error.inj h).symm⟩
    · split at h
      · exact Or.inr ⟨_, (Except.error.inj h).symm⟩
      · exact absurd h (by simp)

/-- Helper: a successful fetch-and-verify step passed the owner check and
records the given strategy and expectation. -/
theorem fetchVerify_ok_assert (g : String → Except ResolveError NormalizedChannel)
    (raw : String) (eo : Option String) (sa strat : String)
    (sel : NormalizedSearchItem) (res : ResolvedChannel)
    (h : resolverFetchVerify g raw eo sa strat sel = .ok res) :
    assertChannelOwnerMatch res.channel eo raw = .ok () ∧
    res.strategy = strat ∧ res.expectedOwnerSlug = eo := by
  rw [resolverFetchVerify] at h
  split at h
  · exact absurd h (by simp)
  · split at h
    · exact absurd h (by simp)
    · next u ha =>
      have hres := Except.ok.inj h
      subst hres
      exact ⟨ha, rfl, rfl⟩

/-- Helper: a successful search-fallback step passed the owner check. -/
theorem searchStep_ok_assert (g : String → Except ResolveError NormalizedChannel)
    (raw n : String) (eo : Option String) (orig : ResolveError)
    (so : Except ResolveError NormalizedSearchResult) (res : ResolvedChannel)
    (h : resolverSearchStep g raw n eo orig so = .ok res) :
    assertChannelOwnerMatch res.channel eo raw = .ok () := by
  rcases so with e | sr
  · rw [resolverSearchStep] at h; exact absurd h (by simp)
  · rw [resolverSearchStep] at h
    split at h
    · exact (fetchVerify_ok_assert _ _ _ _ _ _ _ h).1
    · split at h
      · exact (fetchVerify_ok_assert _ _ _ _ _ _ _ h).1
      · split at h
        · exact (fetchVerify_ok_assert _ _ _ _ _ _ _ h).1
        · exact absurd h (by simp)
        · exact absurd h (by simp)

/-- Helper: every successful resolution passed the owner check against the
expectation derived from the input. -/
theorem resolve_ok_assert (g : String → Except ResolveError NormalizedChannel)
    (s : SearchParams → Except ResolveError NormalizedSearchResult)
    (raw : String) (res : ResolvedChannel)
    (h : resolveChannelFromInput g s raw = .ok res) :
    assertChannelOwnerMatch res.channel
      (normalizeChannelInput raw).expectedOwnerSlug raw = .ok () := by
  rw [resolveChannelFromInput] at h
  split at h
  · next e _ =>
    rcases e with ae | m | m | m | m
    · rw [resolverCatch] at h
      split at h
      · exact searchStep_ok_assert _ _ _ _ _ _ _ h
      · exact absurd h (by simp)
    all_goals exact absurd h (by simp [resolverCatch])
  · next ch _ =>
    split at h
    · next e ha =>
      rcases assert_error_cases _ _ _ _ ha with ⟨m, rfl⟩ | ⟨m, rfl⟩ <;>
        exact absurd h (by simp [resolverCatch])
    · next u ha =>
      have hres := Except.ok.inj h
      subst hres
      exact ha

/-- C3: whenever an owner expectation was derived from the input (an are.na
URL with an `{owner}/{slug}` path or a plain `owner/slug` string, both giving
`expectedOwnerSlug`), a resolution can only succeed with a channel whose
owner slug matches the expectation case-insensitively; a matching owner on
the direct lookup succeeds with strategy `url-extracted` for URL inputs and
`direct` otherwise; a resolved channel without an owner fails the whole
resolution with the owner-verification error, and a differing owner slug
fails it with the owner-mismatch error — the channel is never returned. -/
theorem claim_C3_owner_verification :
    (∀ (g : String → Except ResolveError NormalizedChannel)
        (s : SearchParams → Except ResolveError NormalizedSearchResult)
        (raw : String) (res : ResolvedChannel) (owner : String),
      (normalizeChannelInput raw).expectedOwnerSlug = some owner → owner ≠ "" →
      resolveChannelFromInput g s raw = .ok res →
      ∃ u, res.channel.owner = some u ∧ jsToLower u.slug = owner) ∧
    (∀ g s raw ch u owner,
      (normalizeChannelInput raw).expectedOwnerSlug = some owner → owner ≠ "" →
      g (normalizeChannelInput raw).normalized = .ok ch →
      ch.owner = some u → jsToLower u.slug = owner →
      resolveChannelFromInput g s raw =
        .ok ⟨ch, (normalizeChannelInput raw).normalized,
          if (normalizeChannelInput raw).usedUrlExtraction then "url-extracted"
          else "direct", none, some owner⟩) ∧
    (∀ g s raw ch owner,
      (normalizeChannelInput raw).expectedOwnerSlug = some owner → owner ≠ "" →
      g (normalizeChannelInput raw).normalized = .ok ch →
      ch.owner = none →
      resolveChannelFromInput g s raw =
        .error (.ownerVerificationFailed (ownerVerificationMessage raw owner))) ∧
    (∀ g s raw ch u owner,
      (normalizeChannelInput raw).expectedOwnerSlug = some owner → owner ≠ "" →
      g (normalizeChannelInput raw).normalized = .ok ch →
      ch.owner = some u → jsToLower u.slug ≠ owner → jsToLower u.slug ≠ "" →
      resolveChannelFromInput g s raw =
        .error (.ownerMismatch (ownerMismatchMessage raw owner (jsToLower u.slug)))) := by
  refine ⟨?_, ?_, ?_, ?_⟩
  · intro g s raw res owner heo hne h
    have ha := resolve_ok_assert g s raw res h
    rw [heo] at ha
    exact assert_ok_owner res.channel owner raw ha hne
  · intro g s raw ch u owner heo hne hg hown hslug
    have ha := assert_ok_of_match ch owner raw u hown hslug hne
    rw [resolveChannelFromInput, hg, heo]
    dsimp only
    rw [ha]
  · intro g s raw ch owner heo hne hg hown
    have ha : assertChannelOwnerMatch ch (some owner) raw =
        .error (.ownerVerificationFailed (ownerVerificationMessage raw owner)) := by
      rw [assertChannelOwnerMatch, if_neg (by simp [jsStrFalsy, hne])]
      rw [if_pos (by simp [hown, jsStrFalsy])]
      rfl
    rw [resolveChannelFromInput, hg, heo]
    dsimp only
    rw [ha]
    rfl
  · intro g s raw ch u owner heo hne hg hown hdiff hne2
    have ha : assertChannelOwnerMatch ch (some owner) raw =
        .error (.ownerMismatch (ownerMismatchMessage raw owner (jsToLower u.slug))) := by
      rw [assertChannelOwnerMatch, if_neg (by simp [jsStrFalsy, hne])]
      rw [if_neg (by simp [hown, jsStrFalsy, hne2])]
      rw [if_pos (by simp [hown, hdiff])]
      simp [hown]
    rw [resolveChannelFromInput, hg, heo]
    dsimp only
    rw [ha]
    rfl

/-- C3 witness: for the URL input `https://www.are.na/owner-slug/my-channel`,
a matching owner resolves with strategy `url-extracted`, and a mismatched
owner fails with the owner-mismatch error. -/
theorem claim_C3_owner_verification_witness :
    resolveChannelFromInput (fun _ => .ok demoChannel) demoSearch
      "https://www.are.na/owner-slug/my-channel" =
      .ok ⟨demoChannel, "my-channel", "url-extracted", none, some "owner-slug"⟩ ∧
    resolveChannelFromInput (fun _ => .ok demoChannel) demoSearch
      "https://www.are.na/other-owner/my-channel" =
      .error (.ownerMismatch (ownerMismatchMessage
        "https://www.are.na/other-owner/my-channel" "other-owner" "owner-slug")) :=
  ⟨claim_C3_owner_verification.2.1 (fun _ => .ok demoChannel) demoSearch
      "https://www.are.na/owner-slug/my-channel" demoChannel
      ⟨1, "Owner-Slug", "Owner", none, none⟩ "owner-slug" rfl (by decide) rfl rfl rfl,
   claim_C3_owner_verification.2.2.2 (fun _ => .ok demoChannel) demoSearch
      "https://www.are.na/other-owner/my-channel" demoChannel
      ⟨1, "Owner-Slug", "Owner", none, none⟩ "other-owner" rfl (by decide) rfl rfl
      (by decide) (by decide)⟩

/-- C2: when the direct channel lookup fails, only a typed 404 triggers the
fallback search — every other error propagates unchanged; the fallback search
uses exactly scope `my`, type `Channel`, 10 results sorted by relevance
(`score_desc`), querying the original trimmed input; its candidates are then
tried in strict priority order — a unique case-insensitive slug match
(strategy `search-exact-slug`), else a unique case-insensitive title match
against the trimmed original input (strategy `search-exact-title`), else a
sole remaining candidate (strategy `search-single`); with more than one
unresolved candidate the resolution fails with an ambiguity error whose
message lists at most the first 5 candidates, and with zero candidates the
original not-found error is re-thrown. -/
theorem claim_C2_resolver_fallback :
    (∀ (g : String → Except ResolveError NormalizedChannel)
        (s : SearchParams → Except ResolveError NormalizedSearchResult)
        (raw : String) (e : ResolveError),
      g (normalizeChannelInput raw).normalized = .error e →
      (∀ ae, e = ResolveError.api ae → ae.status ≠ 404) →
      resolveChannelFromInput g s raw = .error e) ∧
    (∀ g s raw ae,
      g (normalizeChannelInput raw).normalized = .error (.api ae) → ae.status = 404 →
      resolveChannelFromInput g s raw =
        resolverSearchStep g raw (normalizeChannelInput raw).normalized
          (normalizeChannelInput raw).expectedOwnerSlug (.api ae)
          (s ({ query := jsTrim raw
                type := some "Channel"
                scope := some "my"
                page := none
                per := some 10
                sort := some "score_desc" } : SearchParams))) ∧
    (∀ (g : String → Except ResolveError NormalizedChannel) (raw n : String)
        (eo : Option String) (orig : ResolveError) (sr : NormalizedSearchResult)
        (sel : NormalizedSearchItem),
      exactSlugMatchesOf n (channelCandidatesOf sr) = [sel] →
      resolverSearchStep g raw n eo orig (.ok sr) =
        resolverFetchVerify g raw eo sr.sourceApi "search-exact-slug" sel) ∧
    (∀ g raw n eo orig sr sel,
      (exactSlugMatchesOf n (channelCandidatesOf sr)).length ≠ 1 →
      exactTitleMatchesOf raw (channelCandidatesOf sr) = [sel] →
      resolverSearchStep g raw n eo orig (.ok sr) =
        resolverFetchVerify g raw eo sr.sourceApi "search-exact-title" sel) ∧
    (∀ g raw n eo orig sr sel,
      (exactSlugMatchesOf n (channelCandidatesOf sr)).length ≠ 1 →
      (exactTitleMatchesOf raw (channelCandidatesOf sr)).length ≠ 1 →
      channelCandidatesOf sr = [sel] →
      resolverSearchStep g raw n eo orig (.ok sr) =
        resolverFetchVerify g raw eo sr.sourceApi "search-single" sel) ∧
    (∀ g raw n eo orig sr,
      (exactSlugMatchesOf n (channelCandidatesOf sr)).length ≠ 1 →
      (exactTitleMatchesOf raw (channelCandidatesOf sr)).length ≠ 1 →
      1 < (channelCandidatesOf sr).length →
      resolverSearchStep g raw n eo orig (.ok sr) =
        .error (.ambiguousChannel (ambiguousChannelMessage raw (channelCandidatesOf sr)))) ∧
    (∀ raw cands,
      ambiguousChannelMessage raw cands = ambiguousChannelMessage raw (cands.take 5)) ∧
    (∀ g raw n eo orig sr,
      channelCandidatesOf sr = [] →
      resolverSearchStep g raw n eo orig (.ok sr) = .error orig) := by
  refine ⟨?_, ?_, ?_, ?_, ?_, ?_, ?_, ?_⟩
  · intro g s raw e hg hne
    rw [resolveChannelFromInput, hg]
    dsimp only
    rcases e with ae | m | m | m | m
    · rw [resolverCatch.eq_def]
      dsimp only
      rw [if_neg (by simp [hne ae rfl])]
    all_goals rfl
  · intro g s raw ae hg h404
    rw [resolveChannelFromInput, hg]
    dsimp only
    rw [resolverCatch.eq_def]
    dsimp only
    rw [if_pos (by simp [h404])]
    rfl
  · intro g raw n eo orig sr sel hslug
    rw [resolverSearchStep, hslug]
  · intro g raw n eo orig sr sel hlen htitle
    rcases hsl : exactSlugMatchesOf n (channelCandidatesOf sr) with _ | ⟨x, xs⟩
    · rw [resolverSearchStep, hsl, htitle]
    · rcases xs with _ | ⟨y, ys⟩
      · rw [hsl] at hlen; simp at hlen
      · rw [resolverSearchStep, hsl, htitle]
  · intro g raw n eo orig sr sel hlen1 hlen2 hcand
    have hsl : exactSlugMatchesOf n (channelCandidatesOf sr) = [] ∨
        ∃ x xs ys, exactSlugMatchesOf n (channelCandidatesOf sr) = x :: xs :: ys := by
      rcases h : exactSlugMatchesOf n (channelCandidatesOf sr) with _ | ⟨x, xs⟩
      · exact Or.inl rfl
      · rcases xs with _ | ⟨y, ys⟩
        · rw [h] at hlen1; simp at hlen1
        · exact Or.inr ⟨x, y, ys, rfl⟩
    have htl : exactTitleMatchesOf raw (channelCandidatesOf sr) = [] ∨
        ∃ x xs ys, exactTitleMatchesOf raw (channelCandidatesOf sr) = x :: xs :: ys := by
      rcases h : exactTitleMatchesOf raw (channelCandidatesOf sr) with _ | ⟨x, xs⟩
      · exact Or.inl rfl
      · rcases xs with _ | ⟨y, ys⟩
        · rw [h] at hlen2; simp at hlen2
        · exact Or.inr ⟨x, y, ys, rfl⟩
    rw [resolverSearchStep]
    rcases hsl with hsl | ⟨x, xs, ys, hsl⟩ <;> rcases htl with htl | ⟨p, ps, qs, htl⟩ <;>
      rw [hsl, htl, hcand]
  · intro g raw n eo orig sr hlen1 hlen2 hgt
    have hsl : exactSlugMatchesOf n (channelCandidatesOf sr) = [] ∨
        ∃ x xs ys, exactSlugMatchesOf n (channelCandidatesOf sr) = x :: xs :: ys := by
      rcases h : exactSlugMatchesOf n (channelCandidatesOf sr) with _ | ⟨x, xs⟩
      · exact Or.inl rfl
      · rcases xs with _ | ⟨y, ys⟩
        · rw [h] at hlen1; simp at hlen1
        · exact Or.inr ⟨x, y, ys, rfl⟩
    have htl : exactTitleMatchesOf raw (channelCandidatesOf sr) = [] ∨
        ∃ x xs ys, exactTitleMatchesOf raw (channelCandidatesOf sr) = x :: xs :: ys := by
      rcases h : exactTitleMatchesOf raw (channelCandidatesOf sr) with _ | ⟨x, xs⟩
      · exact Or.inl rfl
      · rcases xs with _ | ⟨y, ys⟩
        · rw [h] at hlen2; simp at hlen2
        · exact Or.inr ⟨x, y, ys, rfl⟩
    rcases hc : channelCandidatesOf sr with _ | ⟨c1, cs⟩
    · rw [hc] at hgt; simp at hgt
    · rcases cs with _ | ⟨c2, cs2⟩
      · rw [hc] at hgt; simp at hgt
      · rw [resolverSearchStep]
        rcases hsl with hsl | ⟨x, xs, ys, hsl⟩ <;>
          rcases htl with htl | ⟨p, ps, qs, htl⟩ <;>
          rw [hsl, htl, hc]
  · intro raw cands
    rw [ambiguousChannelMessage, ambiguousChannelMessage, List.take_take, min_self]
  · intro g raw n eo orig sr hc
    rw [resolverSearchStep]
    rw [show exactSlugMatchesOf n (channelCandidatesOf sr) = [] from by
        rw [hc]; rfl,
      show exactTitleMatchesOf raw (channelCandidatesOf sr) = [] from by
        rw [hc]; rfl,
      hc]

/-- C2 witness: `owner-slug/my-channel` 404s on direct lookup, triggers the
scoped fallback search with the exact documented parameters, and resolves
via the unique case-insensitive slug match. -/
theorem claim_C2_resolver_fallback_witness :
    resolveChannelFromInput demoGetChannel demoSearch "owner-slug/my-channel" =
      resolverSearchStep demoGetChannel "owner-slug/my-channel" "my-channel"
        (some "owner-slug") (.api ⟨"nf", 404, .null, none, "u"⟩)
        (demoSearch ({ query := "owner-slug/my-channel"
                       type := some "Channel"
                       scope := some "my"
                       page := none
                       per := some 10
                       sort := some "score_desc" } : SearchParams)) ∧
    resolverSearchStep demoGetChannel "owner-slug/my-channel" "my-channel"
        (some "owner-slug") (.api ⟨"nf", 404, .null, none, "u"⟩)
        (.ok demoSearchResult) =
      resolverFetchVerify demoGetChannel "owner-slug/my-channel" (some "owner-slug")
        "v3" "search-exact-slug" demoItem ∧
    resolveChannelFromInput (fun _ => .error (.other "boom")) demoSearch "x" =
      .error (.other "boom") :=
  ⟨claim_C2_resolver_fallback.2.1 demoGetChannel demoSearch "owner-slug/my-channel"
      ⟨"nf", 404, .null, none, "u"⟩ rfl rfl,
   claim_C2_resolver_fallback.2.2.1 demoGetChannel "owner-slug/my-channel" "my-channel"
      (some "owner-slug") (.api ⟨"nf", 404, .null, none, "u"⟩) demoSearchResult demoItem
      rfl,
   claim_C2_resolver_fallback.1 (fun _ => .error (.other "boom")) demoSearch "x"
      (.other "boom") rfl (fun _ h => nomatch h)⟩

end ArenaMcp
